import Mathlib

/-! # Ncat TLS support (`tools/ncat/ncat_ssl.c`)

A shallow embedding of `ncat_ssl.c` (certificate-name matching, fingerprint
formatting, handshake driver, identity generation, listener setup) and proofs
about it.

Conventions of the embedding.

* A byte is a `Nat` (`'*'` is 42, `'.'` is 46, the terminator is 0).
* A `const char *` that comes with an explicit length (a certificate name) is
  a function `Nat → Nat`: the memory seen from the pointer, `s i` being the C
  expression `s[i]`. Pointer arithmetic `s + k` is `fun i => s (i + k)`. Bytes
  stored after the stated length are therefore part of the model, exactly as
  they are reachable from the C pointer.
* A NUL-terminated `const char *` (the hostname) is a `List Nat`: the bytes of
  the buffer, which is followed by a terminating 0. The C string functions stop
  at the first 0 they meet, be it inside the list or the terminator after it.
  A pointer into such a string is the suffix of the list that starts there.
* Lengths and counters are `Nat`. The lengths come from `ASN1_STRING_length`
  (a non-negative `int`), so no counter of this file can wrap.
* What the TLS library answers to the calls of a function is an argument of
  the function (a structure of results); a function that can end the process
  with `bye` or a failed `ncat_assert` has a result that says so.
-/

namespace NcatSsl

/-! ## Constants -/

/-- The byte `'*'`. -/
def STAR : Nat := 42

/-- The byte `'.'`. -/
def DOT : Nat := 46

/-- OpenSSL `NID_commonName`. -/
def NID_commonName : Nat := 13

/-- OpenSSL `NID_subject_alt_name`. -/
def NID_subject_alt_name : Nat := 85

/-- OpenSSL `GEN_DNS`, the `GENERAL_NAME` type tag of a dNSName. -/
def GEN_DNS : Nat := 2

/-- OpenSSL `SSL_VERIFY_NONE`. -/
def SSL_VERIFY_NONE : Nat := 0

/-- OpenSSL `X509_V_OK`. -/
def X509_V_OK : Int := 0

/-! ## C library functions -/

/-- The memory that holds the given bytes, followed by zeros. -/
def mem (l : List Nat) : Nat → Nat := fun i => l.getD i 0

/-- The bytes of a string literal. -/
def str (s : String) : List Nat := s.toList.map Char.toNat

/-- The first `n` bytes stored at `s`. -/
def bytes (s : Nat → Nat) : Nat → List Nat
  | 0 => []
  | n + 1 => s 0 :: bytes (fun i => s (i + 1)) n

/-- The value of a NUL-terminated string: the bytes before its first 0. -/
def cstr : List Nat → List Nat
  | [] => []
  | c :: cs => if c = 0 then [] else c :: cstr cs

/-- C `strlen`: the number of bytes before the first 0. -/
def strlen : List Nat → Nat
  | [] => 0
  | c :: cs => if c = 0 then 0 else strlen cs + 1

/-- C `strchr(s, c)`: a pointer to the first byte equal to `c` in the string
`s` (its terminator included), or `none` for `NULL`. -/
def strchr : List Nat → Nat → Option (List Nat)
  | [], c => if c = 0 then some [] else none
  | x :: xs, c =>
    if x = c then some (x :: xs)
    else if x = 0 then none
    else strchr xs c

/-- C `memchr(s, c, n)`: the offset from `s` of the first of the `n` bytes at
`s` that equals `c`, or `none` for `NULL`. -/
def memchr (s : Nat → Nat) (c : Nat) : Nat → Option Nat
  | 0 => none
  | n + 1 =>
    if s 0 = c then some 0
    else (memchr (fun i => s (i + 1)) c n).map (· + 1)

/-- C `strncmp(s, h, n)` where `h` is a NUL-terminated string: compares at most
`n` bytes, stopping after a difference or after a 0; the result is the
difference of the first two bytes that differ, or 0. -/
def strncmp (s : Nat → Nat) : List Nat → Nat → Int
  | _, 0 => 0
  | [], _ + 1 => (s 0 : Int) - 0
  | b :: h, n + 1 =>
    if s 0 ≠ b then (s 0 : Int) - (b : Int)
    else if s 0 = 0 then 0
    else strncmp (fun i => s (i + 1)) h n

/-! ## `wildcard_match` -/

/-- Source `wildcard_match(pattern, hostname, len)`: match a user-supplied
hostname against a certificate-supplied name, which may be a wildcard
pattern. -/
def wildcard_match (pattern : Nat → Nat) (hostname : List Nat) (len : Nat) : Bool :=
  if len > 1 ∧ pattern 0 = STAR ∧ pattern 1 = DOT then
    -- p += 2; remaining -= 2;
    let p : Nat → Nat := fun i => pattern (i + 2)
    let remaining := len - 2
    if (memchr p STAR remaining).isSome then false
    else
      match memchr p DOT remaining with
      | none => false
      | some dot =>
        -- dot - p == remaining || *(dot + 1) == '\0'
        if dot = remaining ∨ p (dot + 1) = 0 then false
        else
          match strchr hostname DOT with
          | none => false
          | some h =>
            -- h++
            let h := h.tail
            decide (remaining = strlen h) && decide (strncmp p h remaining = 0)
  else
    decide (len = strlen hostname) && decide (strncmp pattern hostname len = 0)

/-! ## Certificates -/

/-- OpenSSL `ASN1_STRING`: a data pointer and a length. -/
structure ASN1_STRING where
  /-- The memory at `ASN1_STRING_data`. -/
  data : Nat → Nat
  /-- The value of `ASN1_STRING_length`. -/
  length : Nat

/-- OpenSSL `GENERAL_NAME`: a type tag and the value; for the tag `GEN_DNS`
the value is the dNSName string `d.dNSName`. -/
structure GENERAL_NAME where
  /-- The field `type`. -/
  type : Nat
  /-- The field `d.dNSName`. -/
  d : ASN1_STRING

/-- OpenSSL `X509_EXTENSION`, with the outcome of decoding its value
(`X509V3_EXT_get` followed by `ASN1_item_d2i` or `method->d2i`): `none` when no
method is registered or decoding fails, else the stack of general names. -/
structure X509_EXTENSION where
  /-- The extension's object, as a NID. -/
  nid : Nat
  /-- The decoded `STACK_OF(GENERAL_NAME)`, `none` for `NULL`. -/
  gen_names : Option (List GENERAL_NAME)

/-- OpenSSL `X509_NAME_ENTRY`: an attribute type and its value. -/
structure X509_NAME_ENTRY where
  /-- The attribute type, as a NID. -/
  nid : Nat
  /-- The result of `X509_NAME_ENTRY_get_data`. -/
  value : ASN1_STRING

/-- OpenSSL `X509`, reduced to what the verifier reads: the extensions in
order and the subject name (`none` when `X509_get_subject_name` is `NULL`). -/
structure X509 where
  /-- The extensions, in certificate order. -/
  extensions : List X509_EXTENSION
  /-- The subject name's entries, in order. -/
  subject : Option (List X509_NAME_ENTRY)

/-- OpenSSL `SSL`, reduced to what `ssl_post_connect_check` reads. -/
structure SSL where
  /-- The value of `SSL_get_verify_mode`. -/
  verify_mode : Nat
  /-- The value of `SSL_get_peer_certificate`, `none` for `NULL`. -/
  peer_certificate : Option X509
  /-- The value of `SSL_get_verify_result`. -/
  verify_result : Int

/-- The scan of OpenSSL `X509v3_get_ext_by_NID`: the index of the first
extension with the given NID in `exts`, whose head has index `pos`; -1 if
there is none. -/
def ext_scan (nid : Nat) : List X509_EXTENSION → Nat → Int
  | [], _ => -1
  | e :: es, pos => if e.nid = nid then (pos : Int) else ext_scan nid es (pos + 1)

/-- OpenSSL `X509_get_ext_by_NID(cert, nid, lastpos)`: the index of the first
extension with the given NID after position `lastpos`, or -1. -/
def X509_get_ext_by_NID (cert : X509) (nid : Nat) (lastpos : Int) : Int :=
  -- lastpos++; if (lastpos < 0) lastpos = 0;
  let start := (lastpos + 1).toNat
  ext_scan nid (cert.extensions.drop start) start

/-- OpenSSL `X509_get_ext(cert, i)`. -/
def X509_get_ext (cert : X509) (i : Int) : Option X509_EXTENSION :=
  if i < 0 then none else cert.extensions.get? i.toNat

/-- The `for` loop of `cert_match_dnsname` over the general names still to be
visited; `num_checked` is the counter so far. The result is the return value
and the final counter. -/
def dnsname_loop (hostname : List Nat) : List GENERAL_NAME → Nat → Bool × Nat
  | [], num_checked => (false, num_checked)
  | gen_name :: rest, num_checked =>
    if gen_name.type = GEN_DNS then
      -- (*num_checked)++
      if wildcard_match gen_name.d.data hostname gen_name.d.length then
        (true, num_checked + 1)
      else dnsname_loop hostname rest (num_checked + 1)
    else dnsname_loop hostname rest num_checked

/-- Source `cert_match_dnsname(cert, hostname, &num_checked)`: the return value
and the value stored in `*num_checked`. -/
def cert_match_dnsname (cert : X509) (hostname : List Nat) : Bool × Nat :=
  let i := X509_get_ext_by_NID cert NID_subject_alt_name (-1)
  if i < 0 then (false, 0)
  -- If there's more than one subjectAltName extension, forget it.
  else if X509_get_ext_by_NID cert NID_subject_alt_name i ≥ 0 then (false, 0)
  else
    match X509_get_ext cert i with
    | none => (false, 0)
    | some ext =>
      match ext.gen_names with
      | none => (false, 0)
      | some gen_names => dnsname_loop hostname gen_names 0

/-! ## Common names -/

/-- The inner loops of `num_components`: advance `p` while it is below `len`
and the byte there is (`dots = true`) or is not (`dots = false`) a `'.'`. The
first argument bounds the number of steps. -/
def skip_run (pattern : Nat → Nat) (len : Nat) (dots : Bool) : Nat → Nat → Nat
  | 0, p => p
  | fuel + 1, p =>
    if p < len ∧ (decide (pattern p = DOT) = dots) then
      skip_run pattern len dots fuel (p + 1)
    else p

/-- The outer `for (;;)` loop of `num_components` from the state `(p, count)`.
The first argument bounds the number of iterations. -/
def num_components_loop (pattern : Nat → Nat) (len : Nat) : Nat → Nat → Nat → Nat
  | 0, _, count => count
  | fuel + 1, p, count =>
    let p := skip_run pattern len true (len - p) p
    if p ≥ len then count
    else
      let p := skip_run pattern len false (len - p) p
      num_components_loop pattern len fuel p (count + 1)

/-- Source `num_components(pattern, len)`: the number of contiguous blocks of
bytes in the pattern that do not contain `'.'`. Every iteration of the outer
loop that does not leave it advances `p` by at least one, so `len + 1`
iterations are enough. -/
def num_components (pattern : Nat → Nat) (len : Nat) : Nat :=
  num_components_loop pattern len (len + 1) 0 0

/-- Source `less_specific(a, a_len, b, b_len)`: is the `a` pattern strictly
less specific than the `b` pattern. -/
def less_specific (a : Nat → Nat) (a_len : Nat) (b : Nat → Nat) (b_len : Nat) : Bool :=
  if (memchr a STAR a_len).isSome ∧ (memchr b STAR b_len).isNone then true
  else if (memchr a STAR a_len).isNone ∧ (memchr b STAR b_len).isSome then false
  else decide (num_components a a_len < num_components b b_len)

/-- The `while` loop of `most_specific_commonname` over the subject entries
still to be visited: `X509_NAME_get_index_by_NID` yields the commonName
entries in order, and `best` is the best one so far (`none` for `NULL`). -/
def most_specific_loop : List X509_NAME_ENTRY → Option ASN1_STRING → Option ASN1_STRING
  | [], best => best
  | entry :: rest, best =>
    if entry.nid = NID_commonName then
      let cur := entry.value
      match best with
      | none => most_specific_loop rest (some cur)
      | some b =>
        if !less_specific cur.data cur.length b.data b.length then
          most_specific_loop rest (some cur)
        else most_specific_loop rest (some b)
    else most_specific_loop rest best

/-- Source `most_specific_commonname(subject, &result)`: the return value and
the pointer stored in `*result` (`none` for `NULL`). -/
def most_specific_commonname (subject : List X509_NAME_ENTRY) : Int × Option (Nat → Nat) :=
  match most_specific_loop subject none with
  | none => (-1, none)
  | some best => ((best.length : Int), some best.data)

/-- Source `cert_match_commonname(cert, hostname)`. -/
def cert_match_commonname (cert : X509) (hostname : List Nat) : Bool :=
  match cert.subject with
  | none => false
  | some subject =>
    match most_specific_commonname subject with
    | (_, none) => false
    | (n, some commonname) =>
      if n < 0 then false
      else wildcard_match commonname hostname n.toNat

/-! ## `ssl_post_connect_check` -/

/-- Source `ssl_post_connect_check(ssl, hostname)`; `hostname` is `none` for a
`NULL` pointer. -/
def ssl_post_connect_check (ssl : SSL) (hostname : Option (List Nat)) : Bool :=
  if ssl.verify_mode = SSL_VERIFY_NONE then true
  else
    match hostname with
    | none => false
    | some hostname =>
      match ssl.peer_certificate with
      | none => false
      | some cert =>
        let r := cert_match_dnsname cert hostname
        let num_checked := r.2
        if !r.1 ∧ (num_checked > 0 ∨ !cert_match_commonname cert hostname) then false
        else decide (ssl.verify_result = X509_V_OK)

/-- The values of the commonName entries of a subject, in subject order: what
the `while` loop of `most_specific_commonname` visits. -/
def cn_values (subject : List X509_NAME_ENTRY) : List ASN1_STRING :=
  (subject.filter (fun e => decide (e.nid = NID_commonName))).map (fun e => e.value)

/-! ## `ssl_cert_fp_str_sha1` -/

/-- The global options `o` of Ncat, reduced to the fields this file reads. A
`char *` option is `none` when it is `NULL`. -/
structure Options where
  /-- The field `o.ssl`. -/
  ssl : Int
  /-- The field `o.debug`. -/
  debug : Int
  /-- The field `o.verbose`. -/
  verbose : Int
  /-- The field `o.target`. -/
  target : Option (List Nat)
  /-- The field `o.sslcert`. -/
  sslcert : Option (List Nat)
  /-- The field `o.sslkey`. -/
  sslkey : Option (List Nat)
  /-- The field `o.sslciphers`. -/
  sslciphers : Option (List Nat)

/-- An output buffer: the memory seen from the caller's pointer, and the offsets
written so far, oldest first. -/
structure OutBuf where
  /-- The bytes at the pointer. -/
  data : Nat → Nat
  /-- The offsets that were written, in order. -/
  written : List Nat

/-- The store `buf[off] = val`. -/
def OutBuf.put (buf : OutBuf) (off val : Nat) : OutBuf :=
  ⟨Function.update buf.data off val, buf.written ++ [off]⟩

/-- The digit that the conversion `%X` prints for a value below 16. -/
def hex_upper (k : Nat) : Nat := if k < 10 then 48 + k else 55 + k

/-- The call `Snprintf(p, 3, "%02X", byte)` with the semantics of C `snprintf`,
`byte` being an `unsigned char`: two hexadecimal digits at `p` and `p + 1` and a
terminator at `p + 2`. -/
def Snprintf_02X (buf : OutBuf) (p byte : Nat) : OutBuf :=
  let v := byte % 256
  ((buf.put p (hex_upper (v / 16))).put (p + 1) (hex_upper (v % 16))).put (p + 2) 0

/-- The `for` loop of `ssl_cert_fp_str_sha1` over the digest bytes still to be
printed, `i` being the index of the first of them and `p` the offset of the
write pointer. The result is the final `p` and the buffer. -/
def fp_loop : List Nat → Nat → Nat → OutBuf → Nat × OutBuf
  | [], _, p, buf => (p, buf)
  | byte :: rest, i, p, buf =>
    if i > 0 ∧ i % 2 = 0 then
      -- *p++ = ' ';
      fp_loop rest (i + 1) (p + 1 + 2) (Snprintf_02X (buf.put p 32) (p + 1) byte)
    else
      fp_loop rest (i + 1) (p + 2) (Snprintf_02X buf p byte)

/-- How a call of `ssl_cert_fp_str_sha1` ends. -/
inductive FpResult where
  /-- The function returned `ptr`: `none` for `NULL`, `some off` for
  `strbuf + off`; `buf` is the caller's buffer after the call. -/
  | returned (ptr : Option Nat) (buf : OutBuf)
  /-- The assertion `ncat_assert(p - strbuf <= len)` failed, which ends the
  process. -/
  | assert_failed (buf : OutBuf)

/-- Source `ssl_cert_fp_str_sha1(cert, strbuf, len)`. The constant
`SHA1_STRING_LENGTH` is declared in a header that is not among the sources and
is a parameter. The certificate is given by the outcome of
`X509_digest(cert, EVP_sha1(), binbuf, &n)`: `none` when the call fails, else
the `n` digest bytes stored in `binbuf`. -/
def ssl_cert_fp_str_sha1 (SHA1_STRING_LENGTH : Nat) (digest : Option (List Nat))
    (strbuf : Nat → Nat) (len : Nat) : FpResult :=
  if len < SHA1_STRING_LENGTH + 1 then FpResult.returned none ⟨strbuf, []⟩
  else
    match digest with
    | none => FpResult.returned none ⟨strbuf, []⟩
    | some binbuf =>
      let r := fp_loop binbuf 0 0 ⟨strbuf, []⟩
      let p := r.1
      if p ≤ len then
        -- *p = 0; return strbuf;
        FpResult.returned (some 0) (r.2.put p 0)
      else FpResult.assert_failed r.2

/-- The fingerprint text that the spec describes: every digest byte as two
uppercase hexadecimal digits, a single space between two consecutive bytes. -/
def fp_text_spec : List Nat → List Nat
  | [] => []
  | [b] => [(str "0123456789ABCDEF").getD (b / 16) 0, (str "0123456789ABCDEF").getD (b % 16) 0]
  | b :: rest =>
    (str "0123456789ABCDEF").getD (b / 16) 0 :: (str "0123456789ABCDEF").getD (b % 16) 0 ::
      32 :: fp_text_spec rest

/-- The fingerprint text in groups of two bytes: every digest byte as two
uppercase hexadecimal digits, a single space after every second byte that has
a successor. -/
def fp_text_grouped : List Nat → List Nat
  | [] => []
  | [b] => [(str "0123456789ABCDEF").getD (b / 16) 0, (str "0123456789ABCDEF").getD (b % 16) 0]
  | [b, c] =>
    [(str "0123456789ABCDEF").getD (b / 16) 0, (str "0123456789ABCDEF").getD (b % 16) 0,
      (str "0123456789ABCDEF").getD (c / 16) 0, (str "0123456789ABCDEF").getD (c % 16) 0]
  | b :: c :: rest =>
    (str "0123456789ABCDEF").getD (b / 16) 0 :: (str "0123456789ABCDEF").getD (b % 16) 0 ::
      (str "0123456789ABCDEF").getD (c / 16) 0 :: (str "0123456789ABCDEF").getD (c % 16) 0 ::
      32 :: fp_text_grouped rest

/-- The characters that the loop of `ssl_cert_fp_str_sha1` leaves in the buffer
for the digest bytes from index `i` on. -/
def fp_text_from : Nat → List Nat → List Nat
  | _, [] => []
  | i, byte :: rest =>
    (if i > 0 ∧ i % 2 = 0 then [32] else []) ++
      hex_upper (byte % 256 / 16) :: hex_upper (byte % 256 % 16) :: fp_text_from (i + 1) rest

/-- The memory `f` after the characters `t` and a terminator are stored from
offset `p` on. -/
def overlay (f : Nat → Nat) (p : Nat) (t : List Nat) : Nat → Nat :=
  fun j =>
    if j < p then f j
    else if j < p + t.length then t.getD (j - p) 0
    else if j = p + t.length then 0
    else f j

/-! ## `ssl_handshake` -/

/-- Modelled from the spec: the handshake status Completed. The enumeration of
the statuses is declared in `ncat_ssl.h`, which is not among the sources; the
spec names four statuses returned by the handshake driver and a usage-error
code distinct from them. They are numbered from 0 here. -/
def NCAT_SSL_HANDSHAKE_COMPLETED : Int := 0

/-- Modelled from the spec: the handshake status PendingRead (see
`NCAT_SSL_HANDSHAKE_COMPLETED`). -/
def NCAT_SSL_HANDSHAKE_PENDING_READ : Int := 1

/-- Modelled from the spec: the handshake status PendingWrite (see
`NCAT_SSL_HANDSHAKE_COMPLETED`). -/
def NCAT_SSL_HANDSHAKE_PENDING_WRITE : Int := 2

/-- Modelled from the spec: the handshake status Failed (see
`NCAT_SSL_HANDSHAKE_COMPLETED`). -/
def NCAT_SSL_HANDSHAKE_FAILED : Int := 3

/-- OpenSSL `SSL_ERROR_WANT_READ`. -/
def SSL_ERROR_WANT_READ : Int := 2

/-- OpenSSL `SSL_ERROR_WANT_WRITE`. -/
def SSL_ERROR_WANT_WRITE : Int := 3

/-- Modelled from the spec: the connection descriptor `struct fdinfo`, declared
in a header that is not among the sources, with the fields that
`ssl_handshake` names: the transport `fd`, the peer address `remoteaddr` and
the TLS session `ssl` (`none` for `NULL`, else the session's address). -/
structure fdinfo where
  /-- The field `fd`. -/
  fd : Int
  /-- The field `remoteaddr`. -/
  remoteaddr : Nat
  /-- The field `ssl`. -/
  ssl : Option Nat
  deriving DecidableEq

/-- A call that `ssl_handshake` makes to the TLS library or to the log. -/
inductive LibCall where
  /-- The call `SSL_new(sslctx)`. -/
  | SSL_new
  /-- The call `SSL_set_fd(ssl, fd)`. -/
  | SSL_set_fd (ssl : Nat) (fd : Int)
  /-- The call `SSL_accept(ssl)`. -/
  | SSL_accept (ssl : Nat)
  /-- The call `SSL_get_error(ssl, ret)`. -/
  | SSL_get_error (ssl : Nat) (ret : Int)
  /-- A call of `logdebug`. -/
  | logdebug
  /-- A call of `loguser`. -/
  | loguser
  deriving DecidableEq

/-- What the TLS library answers during one invocation of `ssl_handshake`. -/
structure HandshakeEnv where
  /-- The result of `SSL_new(sslctx)`: `none` for `NULL`. -/
  SSL_new : Option Nat
  /-- The result of `SSL_set_fd`. -/
  SSL_set_fd : Int
  /-- The result of `SSL_accept`. -/
  SSL_accept : Int
  /-- The result of `SSL_get_error`. -/
  SSL_get_error : Int

/-- Source `new_ssl(fd)`: the new session, or `none` when `bye` ends the
process, and the library calls made. -/
def new_ssl (env : HandshakeEnv) (fd : Int) : Option Nat × List LibCall :=
  match env.SSL_new with
  | none => (none, [LibCall.SSL_new])
  | some ssl =>
    if env.SSL_set_fd = 0 then (none, [LibCall.SSL_new, LibCall.SSL_set_fd ssl fd])
    else (some ssl, [LibCall.SSL_new, LibCall.SSL_set_fd ssl fd])

/-- The outcome of one invocation of `ssl_handshake`. -/
structure HandshakeOut where
  /-- The value returned; `none` when `bye` ended the process in `new_ssl`. -/
  ret : Option Int
  /-- The descriptor after the call (`none` for a `NULL` argument). -/
  sinfo : Option fdinfo
  /-- The library and log calls made, in order. -/
  calls : List LibCall
  deriving DecidableEq

/-- Source `ssl_handshake(sinfo)`. -/
def ssl_handshake (o : Options) (env : HandshakeEnv) (sinfo : Option fdinfo) : HandshakeOut :=
  match sinfo with
  | none => ⟨some (-1), none, if o.debug ≠ 0 then [LibCall.logdebug] else []⟩
  | some s =>
    if o.ssl = 0 then ⟨some (-1), some s, []⟩
    else
      -- if (!sinfo->ssl) sinfo->ssl = new_ssl(sinfo->fd);
      let r : Option Nat × List LibCall :=
        match s.ssl with
        | some ssl => (some ssl, [])
        | none => new_ssl env s.fd
      match r.1 with
      | none => ⟨none, some s, r.2⟩
      | some ssl =>
        let s1 : fdinfo := { s with ssl := some ssl }
        let ret := env.SSL_accept
        if ret = 1 then
          ⟨some NCAT_SSL_HANDSHAKE_COMPLETED, some s1, r.2 ++ [LibCall.SSL_accept ssl]⟩
        else
          let sslerr := env.SSL_get_error
          let calls := r.2 ++ [LibCall.SSL_accept ssl, LibCall.SSL_get_error ssl ret]
          if ret = -1 ∧ sslerr = SSL_ERROR_WANT_READ then
            ⟨some NCAT_SSL_HANDSHAKE_PENDING_READ, some s1, calls⟩
          else if ret = -1 ∧ sslerr = SSL_ERROR_WANT_WRITE then
            ⟨some NCAT_SSL_HANDSHAKE_PENDING_WRITE, some s1, calls⟩
          else
            ⟨some NCAT_SSL_HANDSHAKE_FAILED, some s1,
              calls ++ (if o.verbose ≠ 0 then [LibCall.loguser] else [])⟩

/-! ## `ssl_gen_cert` -/

/-- The constant `DEFAULT_CERT_DURATION`. -/
def DEFAULT_CERT_DURATION : Int := 60 * 60 * 24 * 365

/-- The constant `CERTIFICATE_COMMENT`. -/
def CERTIFICATE_COMMENT : List Nat :=
  str "Automatically generated by Ncat. See https://nmap.org/ncat/."

/-- The certificate that `ssl_gen_cert` builds, as the values it hands to the
library: names are lists of (field, value) entries, extensions are the (name,
value) pairs given to `X509V3_EXT_conf`, in the order they were added. -/
structure X509_gen where
  /-- The argument of `X509_set_version`. -/
  version : Int
  /-- The serial number. -/
  serialNumber : Nat
  /-- The subject name. -/
  subject : List (List Nat × List Nat)
  /-- The issuer name. -/
  issuer : List (List Nat × List Nat)
  /-- The extensions. -/
  extensions : List (List Nat × List Nat)
  /-- The start of validity, once set. -/
  notBefore : Option Int
  /-- The end of validity, once set. -/
  notAfter : Option Int
  /-- The public key, once set. -/
  pubkey : Option Nat
  /-- The key the certificate was signed with, once signed (with `EVP_sha1()`). -/
  signed_by : Option Nat
  deriving DecidableEq

/-- What the library answers during one run of `ssl_gen_cert`. A call that
returns a pointer is given by `false` for `NULL`. -/
structure GenEnv where
  /-- The result of `EVP_RSA_gen(DEFAULT_KEY_BITS)`: the key, `none` for `NULL`. -/
  EVP_RSA_gen : Option Nat
  /-- The result of `X509_new()`. -/
  X509_new : Bool
  /-- The result of `X509_set_version`. -/
  X509_set_version : Int
  /-- The result of `get_random_u32()`. -/
  get_random_u32 : Nat
  /-- The result of `X509_NAME_add_entry_by_txt`. -/
  X509_NAME_add_entry_by_txt : Int
  /-- The result of `X509V3_EXT_conf` for `subjectAltName`. -/
  EXT_conf_subjectAltName : Bool
  /-- The result of `X509_add_ext` for the subjectAltName extension. -/
  add_ext_subjectAltName : Int
  /-- The result of `X509V3_EXT_conf` for `nsComment`. -/
  EXT_conf_nsComment : Bool
  /-- The result of `X509_add_ext` for the nsComment extension. -/
  add_ext_nsComment : Int
  /-- The result of `X509_set_issuer_name`. -/
  X509_set_issuer_name : Int
  /-- The result of `ASN1_STRING_dup(X509_get0_notBefore(*cert))`. -/
  dup_notBefore : Bool
  /-- The result of `X509_gmtime_adj(tb, 0)`. -/
  gmtime_adj_notBefore : Bool
  /-- The result of `X509_set1_notBefore`. -/
  X509_set1_notBefore : Int
  /-- The result of `ASN1_STRING_dup(X509_get0_notAfter(*cert))`. -/
  dup_notAfter : Bool
  /-- The result of `X509_gmtime_adj(ta, DEFAULT_CERT_DURATION)`. -/
  gmtime_adj_notAfter : Bool
  /-- The result of `X509_set1_notAfter`. -/
  X509_set1_notAfter : Int
  /-- The result of `X509_set_pubkey`. -/
  X509_set_pubkey : Int
  /-- The result of `X509_sign`. -/
  X509_sign : Int
  /-- The current time, in seconds. -/
  now : Int

/-- The call `Snprintf(buf, size, "DNS:%s", commonName)` with the semantics of C
`snprintf`: the length of the whole text, and the string left in the buffer,
which is the text cut to `size - 1` characters. -/
def Snprintf_DNS (size : Nat) (commonName : List Nat) : Int × List Nat :=
  let text := str "DNS:" ++ cstr commonName
  ((text.length : Int), text.take (size - 1))

/-- Source `ssl_gen_cert(&cert, &key)`, with the key generation of the branch
for `OPENSSL_API_LEVEL >= 30000` and the validity code of the branch for
OpenSSL 1.1.0 and later: the return value, and the certificate and key stored
through the two pointers (`none` once freed on the error path). -/
def ssl_gen_cert (o : Options) (env : GenEnv) : Int × Option X509_gen × Option Nat :=
  match env.EVP_RSA_gen with
  | none => (0, none, none)
  | some key =>
    if env.X509_new = false then (0, none, none)
    else if env.X509_set_version = 0 then (0, none, none)
    else
      let serial := (env.get_random_u32 % 2 ^ 32) &&& 0x7FFFFFFF
      -- if (o.target != NULL) commonName = o.target;
      let commonName : List Nat :=
        match o.target with
        | some target => target
        | none => str "localhost"
      if env.X509_NAME_add_entry_by_txt = 0 then (0, none, none)
      else
        let subj : List (List Nat × List Nat) := [(str "commonName", cstr commonName)]
        let rc := Snprintf_DNS 128 commonName
        if rc.1 < 0 ∨ rc.1 ≥ 128 then (0, none, none)
        else if env.EXT_conf_subjectAltName = false then (0, none, none)
        else if env.add_ext_subjectAltName = 0 then (0, none, none)
        else if env.EXT_conf_nsComment = false then (0, none, none)
        else if env.add_ext_nsComment = 0 then (0, none, none)
        else if env.X509_set_issuer_name = 0 ∨ env.dup_notBefore = false
            ∨ env.gmtime_adj_notBefore = false ∨ env.X509_set1_notBefore = 0
            ∨ env.dup_notAfter = false ∨ env.gmtime_adj_notAfter = false
            ∨ env.X509_set1_notAfter = 0 ∨ env.X509_set_pubkey = 0 then (0, none, none)
        else if env.X509_sign = 0 then (0, none, none)
        else
          (1,
            some {
              version := 2
              serialNumber := serial
              subject := subj
              issuer := subj
              extensions := [(str "subjectAltName", rc.2), (str "nsComment", CERTIFICATE_COMMENT)]
              notBefore := some (env.now + 0)
              notAfter := some (env.now + DEFAULT_CERT_DURATION)
              pubkey := some key
              signed_by := some key },
            some key)

/-! ## `setup_ssl_listen` -/

/-- The certificate installed in a listening context. -/
inductive CertSource where
  /-- A certificate installed with `SSL_CTX_use_certificate`. -/
  | object (cert : X509_gen)
  /-- A file loaded with `SSL_CTX_use_certificate_chain_file`. -/
  | chain_file (path : List Nat)
  deriving DecidableEq

/-- The private key installed in a listening context. -/
inductive KeySource where
  /-- A key installed with `SSL_CTX_use_PrivateKey`. -/
  | object (key : Nat)
  /-- A file loaded with `SSL_CTX_use_PrivateKey_file`. -/
  | pem_file (path : List Nat)
  deriving DecidableEq

/-- OpenSSL `SSL_CTX`, reduced to what `setup_ssl_listen` sets. -/
structure SSL_CTX where
  /-- The cipher list. -/
  cipher_list : List Nat
  /-- The installed certificate, if any. -/
  certificate : Option CertSource
  /-- The installed private key, if any. -/
  private_key : Option KeySource
  deriving DecidableEq

/-- A step of the credential stage of `setup_ssl_listen`. -/
inductive SetupCall where
  /-- A call of `ssl_gen_cert`. -/
  | ssl_gen_cert
  /-- A call of `ssl_cert_fp_str_sha1`. -/
  | ssl_cert_fp_str_sha1
  /-- A call of `SSL_CTX_use_certificate`. -/
  | SSL_CTX_use_certificate
  /-- A call of `SSL_CTX_use_PrivateKey`. -/
  | SSL_CTX_use_PrivateKey
  /-- A call of `SSL_CTX_use_certificate_chain_file`. -/
  | SSL_CTX_use_certificate_chain_file (path : List Nat)
  /-- A call of `SSL_CTX_use_PrivateKey_file`. -/
  | SSL_CTX_use_PrivateKey_file (path : List Nat)
  deriving DecidableEq

/-- What the library answers during one run of `setup_ssl_listen`. -/
structure SetupEnv where
  /-- The result of `RAND_status()`. -/
  RAND_status : Int
  /-- The result of `SSLv23_server_method()`: `false` for `NULL`. -/
  SSLv23_server_method : Bool
  /-- The result of `SSL_CTX_new`: `false` for `NULL`. -/
  SSL_CTX_new : Bool
  /-- The result of `SSL_CTX_set_cipher_list`. -/
  SSL_CTX_set_cipher_list : Int
  /-- The answers to `ssl_gen_cert`. -/
  gen : GenEnv
  /-- The outcome of `X509_digest` on the generated certificate. -/
  digest : Option (List Nat)
  /-- The contents of the local array `digest_buf` before it is written. -/
  digest_buf : Nat → Nat
  /-- The result of `SSL_CTX_use_certificate`. -/
  SSL_CTX_use_certificate : Int
  /-- The result of `SSL_CTX_use_PrivateKey`. -/
  SSL_CTX_use_PrivateKey : Int
  /-- The result of `SSL_CTX_use_certificate_chain_file`. -/
  SSL_CTX_use_certificate_chain_file : Int
  /-- The result of `SSL_CTX_use_PrivateKey_file`. -/
  SSL_CTX_use_PrivateKey_file : Int

/-- How a run of `setup_ssl_listen` ends. -/
inductive SetupResult where
  /-- The function returned the context. -/
  | done (sslctx : SSL_CTX) (calls : List SetupCall)
  /-- The function ended the process with `bye` and the given message;
  `sslctx` is the context at that moment, if one was created. -/
  | bye (msg : String) (sslctx : Option SSL_CTX) (calls : List SetupCall)
  deriving DecidableEq

/-- Does the call `ssl_cert_fp_str_sha1(cert, digest_buf, sizeof(digest_buf))`
return `digest_buf`, as `ncat_assert(fp == digest_buf)` demands. -/
def fp_returns_buffer (r : FpResult) : Bool :=
  match r with
  | FpResult.returned (some 0) _ => true
  | _ => false

/-- The branch of `setup_ssl_listen` taken when neither a certificate nor a key
is configured (the block that calls `ssl_gen_cert`), from the context `ctx`
built so far. `ssl_gen_cert` returns a non-zero value only together with a
certificate and a key, so the first two cases are returns of 0. In verbose
mode the process goes on only if `ssl_cert_fp_str_sha1` returns the buffer. -/
def setup_generated (SHA1_STRING_LENGTH : Nat) (o : Options) (env : SetupEnv)
    (ctx : SSL_CTX) : SetupResult :=
  match ssl_gen_cert o env.gen with
  | (_, none, _) => SetupResult.bye "ssl_gen_cert(): %s." (some ctx) [SetupCall.ssl_gen_cert]
  | (_, some _, none) =>
    SetupResult.bye "ssl_gen_cert(): %s." (some ctx) [SetupCall.ssl_gen_cert]
  | (ret, some cert, some key) =>
    if ret = 0 then
      SetupResult.bye "ssl_gen_cert(): %s." (some ctx) [SetupCall.ssl_gen_cert]
    else if o.verbose ≠ 0 then
      -- fp = ssl_cert_fp_str_sha1(cert, digest_buf, sizeof(digest_buf));
      if fp_returns_buffer (ssl_cert_fp_str_sha1 SHA1_STRING_LENGTH env.digest
          env.digest_buf (SHA1_STRING_LENGTH + 1)) = false then
        SetupResult.bye "assertion failed: fp == digest_buf" (some ctx)
          [SetupCall.ssl_gen_cert, SetupCall.ssl_cert_fp_str_sha1]
      else if env.SSL_CTX_use_certificate ≠ 1 then
        SetupResult.bye "SSL_CTX_use_certificate(): %s." (some ctx)
          [SetupCall.ssl_gen_cert, SetupCall.ssl_cert_fp_str_sha1,
            SetupCall.SSL_CTX_use_certificate]
      else if env.SSL_CTX_use_PrivateKey ≠ 1 then
        SetupResult.bye "SSL_CTX_use_PrivateKey(): %s."
          (some { ctx with certificate := some (CertSource.object cert) })
          [SetupCall.ssl_gen_cert, SetupCall.ssl_cert_fp_str_sha1,
            SetupCall.SSL_CTX_use_certificate, SetupCall.SSL_CTX_use_PrivateKey]
      else
        SetupResult.done
          { ctx with
            certificate := some (CertSource.object cert)
            private_key := some (KeySource.object key) }
          [SetupCall.ssl_gen_cert, SetupCall.ssl_cert_fp_str_sha1,
            SetupCall.SSL_CTX_use_certificate, SetupCall.SSL_CTX_use_PrivateKey]
    else if env.SSL_CTX_use_certificate ≠ 1 then
      SetupResult.bye "SSL_CTX_use_certificate(): %s." (some ctx)
        [SetupCall.ssl_gen_cert, SetupCall.SSL_CTX_use_certificate]
    else if env.SSL_CTX_use_PrivateKey ≠ 1 then
      SetupResult.bye "SSL_CTX_use_PrivateKey(): %s."
        (some { ctx with certificate := some (CertSource.object cert) })
        [SetupCall.ssl_gen_cert, SetupCall.SSL_CTX_use_certificate,
          SetupCall.SSL_CTX_use_PrivateKey]
    else
      SetupResult.done
        { ctx with
          certificate := some (CertSource.object cert)
          private_key := some (KeySource.object key) }
        [SetupCall.ssl_gen_cert, SetupCall.SSL_CTX_use_certificate,
          SetupCall.SSL_CTX_use_PrivateKey]

/-- The branch of `setup_ssl_listen` taken when a certificate or a key is
configured, from the context `ctx` built so far. -/
def setup_files (o : Options) (env : SetupEnv) (ctx : SSL_CTX) : SetupResult :=
  match o.sslcert, o.sslkey with
  | some sslcert, some sslkey =>
    if env.SSL_CTX_use_certificate_chain_file ≠ 1 then
      SetupResult.bye "SSL_CTX_use_certificate_chain_file(): %s." (some ctx)
        [SetupCall.SSL_CTX_use_certificate_chain_file sslcert]
    else if env.SSL_CTX_use_PrivateKey_file ≠ 1 then
      SetupResult.bye "SSL_CTX_use_Privatekey_file(): %s."
        (some { ctx with certificate := some (CertSource.chain_file sslcert) })
        [SetupCall.SSL_CTX_use_certificate_chain_file sslcert,
          SetupCall.SSL_CTX_use_PrivateKey_file sslkey]
    else
      SetupResult.done
        { ctx with
          certificate := some (CertSource.chain_file sslcert)
          private_key := some (KeySource.pem_file sslkey) }
        [SetupCall.SSL_CTX_use_certificate_chain_file sslcert,
          SetupCall.SSL_CTX_use_PrivateKey_file sslkey]
  | _, _ =>
    -- if (o.sslcert == NULL || o.sslkey == NULL)
    SetupResult.bye "The --ssl-key and --ssl-cert options must be used together."
      (some ctx) []

/-- Source `setup_ssl_listen()`. The argument `sslctx` is the value of the
static variable `sslctx` at entry; `SHA1_STRING_LENGTH` is as in
`ssl_cert_fp_str_sha1`. -/
def setup_ssl_listen (SHA1_STRING_LENGTH : Nat) (o : Options) (env : SetupEnv)
    (sslctx : Option SSL_CTX) : SetupResult :=
  match sslctx with
  | some ctx => SetupResult.done ctx []
  | none =>
    if env.RAND_status = 0 then
      SetupResult.bye "Failed to seed OpenSSL PRNG (RAND_status returned false)." none []
    else if env.SSLv23_server_method = false then
      SetupResult.bye "SSLv23_server_method(): %s." none []
    else if env.SSL_CTX_new = false then SetupResult.bye "SSL_CTX_new(): %s." none []
    else if env.SSL_CTX_set_cipher_list = 0 then
      SetupResult.bye "Unable to set OpenSSL cipher list: %s" (some ⟨[], none, none⟩) []
    else
      let ciphers : List Nat :=
        match o.sslciphers with
        | none => str "ALL:!aNULL:!eNULL:!LOW:!EXP:!RC4:!MD5:@STRENGTH"
        | some c => c
      if o.sslcert = none ∧ o.sslkey = none then
        setup_generated SHA1_STRING_LENGTH o env ⟨ciphers, none, none⟩
      else setup_files o env ⟨ciphers, none, none⟩

/-- The steps made by a run of `setup_ssl_listen`. -/
def SetupResult.calls : SetupResult → List SetupCall
  | SetupResult.done _ calls => calls
  | SetupResult.bye _ _ calls => calls

/-! ## Specification of `num_components` -/

/-- The number of runs that start in the given bytes: a run starts at a byte
other than `'.'` unless the byte before it belongs to a run (`in_run` says
whether the byte before the first one does). -/
def runs_from : Bool → List Nat → Nat
  | _, [] => 0
  | in_run, b :: rest =>
    if b = DOT then runs_from false rest
    else (if in_run then 0 else 1) + runs_from true rest

/-- The number of maximal contiguous non-empty runs of bytes other than `'.'`
in a byte sequence. -/
def count_runs (l : List Nat) : Nat := runs_from false l

/-- Every library call of `ssl_gen_cert` succeeds. -/
def GenEnv.all_ok (env : GenEnv) : Prop :=
  env.EVP_RSA_gen ≠ none ∧ env.X509_new = true ∧ env.X509_set_version ≠ 0 ∧
  env.X509_NAME_add_entry_by_txt ≠ 0 ∧ env.EXT_conf_subjectAltName = true ∧
  env.add_ext_subjectAltName ≠ 0 ∧ env.EXT_conf_nsComment = true ∧
  env.add_ext_nsComment ≠ 0 ∧ env.X509_set_issuer_name ≠ 0 ∧ env.dup_notBefore = true ∧
  env.gmtime_adj_notBefore = true ∧ env.X509_set1_notBefore ≠ 0 ∧ env.dup_notAfter = true ∧
  env.gmtime_adj_notAfter = true ∧ env.X509_set1_notAfter ≠ 0 ∧ env.X509_set_pubkey ≠ 0 ∧
  env.X509_sign ≠ 0

/-! ## Test data -/

/-- A digest of 20 bytes. -/
def digest_sample : List Nat :=
  [0, 1, 2, 3, 4, 5, 6, 7, 8, 9, 10, 171, 205, 239, 255, 15, 16, 17, 18, 19]

/-- Options with TLS enabled, no logging, and the given target name and
certificate and key paths. -/
def optionsWith (target sslcert sslkey : Option (List Nat)) : Options :=
  ⟨1, 0, 0, target, sslcert, sslkey, none⟩

/-- Library answers for `ssl_handshake`: session creation succeeds, and the
accept step gives the two values. -/
def acceptEnv (ret sslerr : Int) : HandshakeEnv := ⟨some 4096, 1, ret, sslerr⟩

/-- A descriptor that has no session yet. -/
def freshDescriptor : fdinfo := ⟨5, 0, none⟩

/-- Library answers for `ssl_gen_cert` where every call succeeds. -/
def genEnvOk : GenEnv :=
  ⟨some 77, true, 1, 123456789, 1, true, 1, true, 1, 1, true, true, 1, true, true, 1, 1, 1,
    1000⟩

/-- Library answers for `setup_ssl_listen` where every call succeeds. -/
def setupEnvOk : SetupEnv :=
  ⟨1, true, true, 1, genEnvOk, some digest_sample, fun _ => 0, 1, 1, 1, 1⟩


/-- The `ASN1_STRING` that holds the given text (followed in memory by zeros). -/
def asn1 (s : String) : ASN1_STRING := ⟨mem (str s), (str s).length⟩

/-- A dNSName entry of a subjectAltName extension. -/
def dnsName (s : String) : GENERAL_NAME := ⟨GEN_DNS, asn1 s⟩

/-- A subjectAltName extension with the given dNSName entries. -/
def sanExt (names : List String) : X509_EXTENSION :=
  ⟨NID_subject_alt_name, some (names.map dnsName)⟩

/-- A commonName entry of a subject. -/
def cnEntry (s : String) : X509_NAME_ENTRY := ⟨NID_commonName, asn1 s⟩

/-- A certificate whose subjectAltName names do not cover `x.example.com` and
whose commonName is `x.example.com`. -/
def certSanMismatch : X509 :=
  ⟨[sanExt ["a.example.com", "*.b.example.com"]], some [cnEntry "x.example.com"]⟩

/-- A certificate with two subjectAltName extensions, the first of which names
`x.example.com`, and the commonName `x.example.com`. -/
def certTwoSan : X509 :=
  ⟨[sanExt ["x.example.com"], sanExt ["y.example.com"]], some [cnEntry "x.example.com"]⟩

/-- A certificate with two subjectAltName extensions, the first of which names
`mail.example.com`, and the commonNames `*.example.com` and `www.example.com`,
in this order. -/
def certTwoSanTwoCn : X509 :=
  ⟨[sanExt ["mail.example.com"], sanExt ["y.example.com"]],
    some [cnEntry "*.example.com", cnEntry "www.example.com"]⟩

/-- A session that requests verification (`SSL_VERIFY_PEER`), with the given
peer certificate and verification result. -/
def sslWith (cert : X509) (verify_result : Int) : SSL := ⟨1, some cert, verify_result⟩

/-! ## C strings -/

theorem strlen_eq_length_cstr (h : List Nat) : strlen h = (cstr h).length := by
  induction h with
  | nil => rfl
  | cons c cs ih =>
    by_cases hc : c = 0
    · simp [strlen, cstr, hc]
    · simp [strlen, cstr, hc, ih]

theorem zero_not_mem_cstr (h : List Nat) : 0 ∉ cstr h := by
  induction h with
  | nil => simp [cstr]
  | cons c cs ih =>
    by_cases hc : c = 0
    · simp [cstr, hc]
    · simp only [cstr, hc, if_false, List.mem_cons, not_or]
      exact ⟨fun h0 => hc h0.symm, ih⟩

theorem bytes_length (s : Nat → Nat) (n : Nat) : (bytes s n).length = n := by
  induction n generalizing s with
  | zero => rfl
  | succ n ih => simp [bytes, ih]

theorem mem_bytes_iff (s : Nat → Nat) (n c : Nat) :
    c ∈ bytes s n ↔ ∃ i, i < n ∧ s i = c := by
  induction n generalizing s with
  | zero => simp [bytes]
  | succ n ih =>
    simp only [bytes, List.mem_cons, ih]
    constructor
    · rintro (h | ⟨i, hi, hs⟩)
      · exact ⟨0, by omega, h.symm⟩
      · exact ⟨i + 1, by omega, hs⟩
    · rintro ⟨i, hi, hs⟩
      cases i with
      | zero => exact Or.inl hs.symm
      | succ i => exact Or.inr ⟨i, by omega, hs⟩

/-- The comparison at the end of `wildcard_match` succeeds exactly when the
`n` bytes at `s` are the value of the string `h`. -/
theorem strlen_strncmp_iff (s : Nat → Nat) (h : List Nat) (n : Nat) :
    (n = strlen h ∧ strncmp s h n = 0) ↔ bytes s n = cstr h := by
  induction h generalizing s n with
  | nil =>
    cases n with
    | zero => simp [strlen, strncmp, bytes, cstr]
    | succ n => simp [strlen, bytes, cstr]
  | cons b t ih =>
    by_cases hb : b = 0
    · cases n with
      | zero => simp [strlen, strncmp, bytes, cstr, hb]
      | succ n => simp [strlen, bytes, cstr, hb]
    · cases n with
      | zero => simp [strlen, bytes, cstr, hb]
      | succ n =>
        by_cases hs : s 0 = b
        · have hs0 : s 0 ≠ 0 := by rw [hs]; exact hb
          have := ih (fun i => s (i + 1)) n
          simp only [strlen, hb, if_false, strncmp, hs, ne_eq, not_true_eq_false, bytes, cstr,
            List.cons.injEq, true_and, add_left_inj]
          simpa [hs] using this
        · have hne : (s 0 : Int) - (b : Int) ≠ 0 := by omega
          simp [strlen, strncmp, bytes, cstr, hb, hs, hne]

/-! ## `memchr` and `strchr` -/

theorem memchr_eq_none_iff (s : Nat → Nat) (c n : Nat) :
    memchr s c n = none ↔ ∀ i, i < n → s i ≠ c := by
  induction n generalizing s with
  | zero => simp [memchr]
  | succ n ih =>
    by_cases h0 : s 0 = c
    · simp only [memchr, h0, if_true]
      constructor
      · intro h; cases h
      · intro h; exact absurd h0 (h 0 (by omega))
    · simp only [memchr, h0, if_false, Option.map_eq_none', ih]
      constructor
      · intro h i hi
        cases i with
        | zero => exact h0
        | succ i => exact h i (by omega)
      · intro h i hi
        exact h (i + 1) (by omega)

theorem memchr_eq_some (s : Nat → Nat) (c n k : Nat) (h : memchr s c n = some k) :
    k < n ∧ s k = c ∧ ∀ j, j < k → s j ≠ c := by
  induction n generalizing s k with
  | zero => simp [memchr] at h
  | succ n ih =>
    by_cases h0 : s 0 = c
    · simp only [memchr, h0, if_true, Option.some.injEq] at h
      subst h
      exact ⟨by omega, h0, fun j hj => by omega⟩
    · simp only [memchr, h0, if_false, Option.map_eq_some'] at h
      obtain ⟨k', hk', rfl⟩ := h
      obtain ⟨h1, h2, h3⟩ := ih (fun i => s (i + 1)) k' hk'
      refine ⟨by omega, h2, ?_⟩
      intro j hj
      cases j with
      | zero => exact h0
      | succ j => exact h3 j (by omega)

theorem memchr_isSome_iff (s : Nat → Nat) (c n : Nat) :
    (memchr s c n).isSome = true ↔ ∃ i, i < n ∧ s i = c := by
  have h := memchr_eq_none_iff s c n
  cases hm : memchr s c n with
  | none =>
    rw [hm] at h
    have h' := h.mp rfl
    simp only [Option.isSome_none, Bool.false_eq_true, false_iff, not_exists, not_and]
    exact h'
  | some k =>
    obtain ⟨h1, h2, _⟩ := memchr_eq_some s c n k hm
    simp only [Option.isSome_some, true_iff]
    exact ⟨k, h1, h2⟩

theorem strchr_eq_none_iff (h : List Nat) (c : Nat) (hc : c ≠ 0) :
    strchr h c = none ↔ c ∉ cstr h := by
  induction h with
  | nil => simp [strchr, cstr, hc]
  | cons x xs ih =>
    by_cases hx : x = c
    · have hx0 : x ≠ 0 := by rw [hx]; exact hc
      simp [strchr, cstr, hx, hc]
    · by_cases hx0 : x = 0
      · have hc' : ¬ (0 = c) := fun h => hc h.symm
        simp [strchr, cstr, hx0, hc']
      · simp only [strchr, hx, if_false, hx0, cstr, List.mem_cons, not_or, ih]
        exact ⟨fun h => ⟨fun h' => hx h'.symm, h⟩, fun h => h.2⟩

theorem strchr_eq_some (h t : List Nat) (c : Nat) (hc : c ≠ 0) (ht : strchr h c = some t) :
    ∃ pre, c ∉ pre ∧ cstr h = pre ++ c :: cstr t.tail := by
  induction h with
  | nil => simp [strchr, hc] at ht
  | cons x xs ih =>
    by_cases hx : x = c
    · simp only [strchr, hx, if_true, Option.some.injEq] at ht
      subst ht
      refine ⟨[], by simp, ?_⟩
      simp [cstr, hx, hc]
    · by_cases hx0 : x = 0
      · have hc' : ¬ (0 = c) := fun h => hc h.symm
        simp [strchr, hx0, hc'] at ht
      · simp only [strchr, hx, if_false, hx0] at ht
        obtain ⟨pre, hpre, heq⟩ := ih ht
        refine ⟨x :: pre, ?_, ?_⟩
        · simp only [List.mem_cons, not_or]
          exact ⟨fun h' => hx h'.symm, hpre⟩
        · simp [cstr, hx0, heq]

theorem split_at_first_unique (c : Nat) (pre pre' a b : List Nat) (hpre : c ∉ pre)
    (hpre' : c ∉ pre') (h : pre ++ c :: a = pre' ++ c :: b) : a = b := by
  induction pre generalizing pre' with
  | nil =>
    cases pre' with
    | nil => simpa using h
    | cons y ys =>
      simp only [List.nil_append, List.cons_append, List.cons.injEq] at h
      exact absurd (List.mem_cons_self _ _) (h.1 ▸ hpre')
  | cons x xs ih =>
    cases pre' with
    | nil =>
      simp only [List.nil_append, List.cons_append, List.cons.injEq] at h
      exact absurd (List.mem_cons_self _ _) (h.1 ▸ hpre)
    | cons y ys =>
      simp only [List.cons_append, List.cons.injEq] at h
      exact ih ys (fun hm => hpre (List.mem_cons_of_mem _ hm))
        (fun hm => hpre' (List.mem_cons_of_mem _ hm)) h.2

/-! ## `wildcard_match` -/

theorem wildcard_match_plain_iff (pattern : Nat → Nat) (hostname : List Nat) (len : Nat)
    (hw : ¬ (len > 1 ∧ pattern 0 = STAR ∧ pattern 1 = DOT)) :
    wildcard_match pattern hostname len = true ↔ bytes pattern len = cstr hostname := by
  unfold wildcard_match
  rw [if_neg hw, ← strlen_strncmp_iff]
  simp

theorem wildcard_match_wild_iff (pattern : Nat → Nat) (hostname : List Nat) (len : Nat)
    (hw : len > 1 ∧ pattern 0 = STAR ∧ pattern 1 = DOT) :
    wildcard_match pattern hostname len = true ↔
      memchr (fun i => pattern (i + 2)) STAR (len - 2) = none ∧
      ∃ dot, memchr (fun i => pattern (i + 2)) DOT (len - 2) = some dot ∧
        dot ≠ len - 2 ∧ pattern (dot + 1 + 2) ≠ 0 ∧
        ∃ t, strchr hostname DOT = some t ∧
          bytes (fun i => pattern (i + 2)) (len - 2) = cstr t.tail := by
  unfold wildcard_match
  rw [if_pos hw]
  simp only
  cases hs : memchr (fun i => pattern (i + 2)) STAR (len - 2) with
  | some k => simp
  | none =>
    cases hd : memchr (fun i => pattern (i + 2)) DOT (len - 2) with
    | none => simp
    | some dot =>
      by_cases hrej : dot = len - 2 ∨ pattern (dot + 1 + 2) = 0
      · simp only [Option.isSome_none, Bool.false_eq_true, if_false, hrej, if_true,
          true_and, Option.some.injEq, exists_eq_left', false_iff]
        rintro ⟨h1, h2, _⟩
        exact hrej.elim h1 h2
      · have hrej' := hrej
        rw [not_or] at hrej'
        cases ht : strchr hostname DOT with
        | none => simp [hrej]
        | some t =>
          simp only [Option.isSome_none, Bool.false_eq_true, if_false, hrej, true_and,
            Option.some.injEq, exists_eq_left', Bool.and_eq_true, decide_eq_true_eq,
            strlen_strncmp_iff]
          exact ⟨fun h => ⟨hrej'.1, hrej'.2, h⟩, fun h => h.2.2⟩

/-- Every byte of a name that matches some hostname is non-zero. -/
theorem wildcard_match_no_nul (pattern : Nat → Nat) (hostname : List Nat) (len : Nat)
    (hm : wildcard_match pattern hostname len = true) (i : Nat) (hi : i < len) :
    pattern i ≠ 0 := by
  by_cases hw : len > 1 ∧ pattern 0 = STAR ∧ pattern 1 = DOT
  · obtain ⟨_, _, _, _, _, t, _, hb⟩ := (wildcard_match_wild_iff pattern hostname len hw).mp hm
    by_cases hi2 : i < 2
    · have : i = 0 ∨ i = 1 := by omega
      rcases this with rfl | rfl
      · rw [hw.2.1]; decide
      · rw [hw.2.2]; decide
    · intro h0
      have hmem : (0 : Nat) ∈ bytes (fun i => pattern (i + 2)) (len - 2) :=
        (mem_bytes_iff _ _ _).mpr ⟨i - 2, by omega, by
          have : i - 2 + 2 = i := by omega
          simp only [this]; exact h0⟩
      rw [hb] at hmem
      exact zero_not_mem_cstr _ hmem
  · have hb := (wildcard_match_plain_iff pattern hostname len hw).mp hm
    intro h0
    have hmem : (0 : Nat) ∈ bytes pattern len := (mem_bytes_iff _ _ _).mpr ⟨i, hi, h0⟩
    rw [hb] at hmem
    exact zero_not_mem_cstr _ hmem

/-! ## Certificate lookups -/

theorem ext_scan_spec (nid : Nat) (l : List X509_EXTENSION) (pos : Nat) :
    (ext_scan nid l pos = -1 ∧ l.filter (fun e => decide (e.nid = nid)) = []) ∨
    (∃ k e, ext_scan nid l pos = ((pos + k : Nat) : Int) ∧ l.get? k = some e ∧
      l.filter (fun e => decide (e.nid = nid)) =
        e :: (l.drop (k + 1)).filter (fun e => decide (e.nid = nid))) := by
  induction l generalizing pos with
  | nil => exact Or.inl ⟨rfl, rfl⟩
  | cons e es ih =>
    by_cases he : e.nid = nid
    · refine Or.inr ⟨0, e, ?_, rfl, ?_⟩
      · simp [ext_scan, he]
      · simp [he]
    · rcases ih (pos + 1) with ⟨h1, h2⟩ | ⟨k, e', h1, h2, h3⟩
      · exact Or.inl ⟨by simp [ext_scan, he, h1], by simp [he, h2]⟩
      · refine Or.inr ⟨k + 1, e', ?_, ?_, ?_⟩
        · simp only [ext_scan, he, if_false, h1]
          congr 1
          omega
        · simpa using h2
        · simpa [he] using h3

/-- What `cert_match_dnsname` computes, in terms of the list of the
certificate's subjectAltName extensions. -/
theorem cert_match_dnsname_eq (cert : X509) (hostname : List Nat) :
    cert_match_dnsname cert hostname =
      match cert.extensions.filter (fun e => decide (e.nid = NID_subject_alt_name)) with
      | [ext] =>
        (match ext.gen_names with
          | none => (false, 0)
          | some gen_names => dnsname_loop hostname gen_names 0)
      | _ => (false, 0) := by
  unfold cert_match_dnsname X509_get_ext_by_NID X509_get_ext
  have hstart : ((-1 : Int) + 1).toNat = 0 := by decide
  simp only [hstart, List.drop_zero]
  rcases ext_scan_spec NID_subject_alt_name cert.extensions 0 with
    ⟨h1, h2⟩ | ⟨k, e, h1, h2, h3⟩
  · rw [h1, h2]
    simp
  · rw [h1, h3]
    have hk : ¬ (((0 + k : Nat) : Int) < 0) := by omega
    have hk' : (((0 + k : Nat) : Int) + 1).toNat = k + 1 := by omega
    have hk2 : ((0 + k : Nat) : Int).toNat = k := by omega
    simp only [hk, if_false, hk', hk2, h2]
    rcases ext_scan_spec NID_subject_alt_name (cert.extensions.drop (k + 1)) (k + 1) with
      ⟨g1, g2⟩ | ⟨k', e', g1, _, g3⟩
    · rw [g1, g2]
      simp
    · rw [g1, g3]
      have hge : ((k + 1 + k' : Nat) : Int) ≥ 0 := by omega
      rw [if_pos hge]

theorem dnsname_loop_no_dns (hostname : List Nat) (names : List GENERAL_NAME) (n : Nat)
    (h : ∀ g ∈ names, g.type ≠ GEN_DNS) : dnsname_loop hostname names n = (false, n) := by
  induction names generalizing n with
  | nil => rfl
  | cons g gs ih =>
    have hg : g.type ≠ GEN_DNS := h g (List.mem_cons_self _ _)
    simp only [dnsname_loop, hg, if_false]
    exact ih n (fun g' hg' => h g' (List.mem_cons_of_mem _ hg'))

theorem dnsname_loop_no_match (hostname : List Nat) (names : List GENERAL_NAME) (n : Nat)
    (h : ∀ g ∈ names, g.type = GEN_DNS →
      wildcard_match g.d.data hostname g.d.length = false) :
    (dnsname_loop hostname names n).1 = false ∧ n ≤ (dnsname_loop hostname names n).2 ∧
      ((∃ g ∈ names, g.type = GEN_DNS) → n < (dnsname_loop hostname names n).2) := by
  induction names generalizing n with
  | nil => simp [dnsname_loop]
  | cons g gs ih =>
    have hgs : ∀ g' ∈ gs, g'.type = GEN_DNS →
        wildcard_match g'.d.data hostname g'.d.length = false :=
      fun g' hg' => h g' (List.mem_cons_of_mem _ hg')
    by_cases hg : g.type = GEN_DNS
    · have hw := h g (List.mem_cons_self _ _) hg
      obtain ⟨i1, i2, _⟩ := ih (n + 1) hgs
      simp only [dnsname_loop, hg, if_true, hw, Bool.false_eq_true, if_false]
      exact ⟨i1, by omega, fun _ => by omega⟩
    · obtain ⟨i1, i2, i3⟩ := ih n hgs
      simp only [dnsname_loop, hg, if_false]
      refine ⟨i1, i2, ?_⟩
      rintro ⟨g', hg', ht⟩
      rcases List.mem_cons.mp hg' with rfl | hmem
      · exact absurd ht hg
      · exact i3 ⟨g', hmem, ht⟩

theorem ssl_post_connect_check_eq (ssl : SSL) (hostname : List Nat) (cert : X509)
    (hmode : ssl.verify_mode ≠ SSL_VERIFY_NONE) (hcert : ssl.peer_certificate = some cert) :
    ssl_post_connect_check ssl (some hostname) =
      (((cert_match_dnsname cert hostname).1 ||
          (decide ((cert_match_dnsname cert hostname).2 = 0) &&
            cert_match_commonname cert hostname)) &&
        decide (ssl.verify_result = X509_V_OK)) := by
  unfold ssl_post_connect_check
  simp only [hmode, if_false, hcert]
  cases h1 : (cert_match_dnsname cert hostname).1 <;>
    cases h2 : cert_match_commonname cert hostname <;>
    by_cases h3 : (cert_match_dnsname cert hostname).2 = 0 <;>
    simp [h3]

/-! ## The claims -/

/-- C1: when verification is requested and the peer certificate has a single
subjectAltName extension whose decoded names include at least one dNSName, none
of which matches the hostname, the check fails, whatever the subject and the
verification result are: there is no fallback to the commonName. -/
theorem ssl_post_connect_check_san_suppresses_cn (ssl : SSL) (hostname : List Nat)
    (cert : X509) (ext : X509_EXTENSION) (names : List GENERAL_NAME)
    (hmode : ssl.verify_mode ≠ SSL_VERIFY_NONE) (hcert : ssl.peer_certificate = some cert)
    (hsan : cert.extensions.filter (fun e => decide (e.nid = NID_subject_alt_name)) = [ext])
    (hnames : ext.gen_names = some names) (hex : ∃ g ∈ names, g.type = GEN_DNS)
    (hno : ∀ g ∈ names, g.type = GEN_DNS →
      wildcard_match g.d.data hostname g.d.length = false) :
    ssl_post_connect_check ssl (some hostname) = false := by
  have hd : cert_match_dnsname cert hostname = dnsname_loop hostname names 0 := by
    rw [cert_match_dnsname_eq, hsan]
    simp only [hnames]
  obtain ⟨l1, _, l3⟩ := dnsname_loop_no_match hostname names 0 hno
  have hpos := l3 hex
  rw [ssl_post_connect_check_eq ssl hostname cert hmode hcert, hd, l1]
  have hne : ¬ ((dnsname_loop hostname names 0).2 = 0) := by omega
  simp [hne]

theorem ssl_post_connect_check_san_suppresses_cn_witness :
    cert_match_commonname certSanMismatch (str "x.example.com") = true ∧
    (sslWith certSanMismatch 0).verify_result = X509_V_OK ∧
    ssl_post_connect_check (sslWith certSanMismatch 0) (some (str "x.example.com")) = false :=
  ⟨by decide, by decide,
    ssl_post_connect_check_san_suppresses_cn (sslWith certSanMismatch 0)
      (str "x.example.com") certSanMismatch
      (sanExt ["a.example.com", "*.b.example.com"])
      [dnsName "a.example.com", dnsName "*.b.example.com"]
      (by decide) rfl rfl rfl ⟨dnsName "a.example.com", by simp, rfl⟩
      (by
        intro g hg _
        simp only [List.mem_cons, List.mem_singleton, List.not_mem_nil, or_false] at hg
        rcases hg with rfl | rfl <;> decide)⟩

/-- C2: when verification is requested, the check succeeds exactly when a
hostname was given, a peer certificate was presented, the name matched (a
dNSName of the subjectAltName matched, or no dNSName was examined and the most
specific commonName matched) and the library's verification result is
`X509_V_OK`. So a name match with another verification result fails, and so
does `X509_V_OK` without a name match. -/
theorem ssl_post_connect_check_true_iff (ssl : SSL) (hostname : Option (List Nat))
    (hmode : ssl.verify_mode ≠ SSL_VERIFY_NONE) :
    ssl_post_connect_check ssl hostname = true ↔
      ∃ h cert, hostname = some h ∧ ssl.peer_certificate = some cert ∧
        ((cert_match_dnsname cert h).1 = true ∨
          ((cert_match_dnsname cert h).2 = 0 ∧ cert_match_commonname cert h = true)) ∧
        ssl.verify_result = X509_V_OK := by
  cases hostname with
  | none => simp [ssl_post_connect_check, hmode]
  | some h =>
    cases hc : ssl.peer_certificate with
    | none => simp [ssl_post_connect_check, hmode, hc]
    | some cert =>
      rw [ssl_post_connect_check_eq ssl h cert hmode hc]
      simp

theorem ssl_post_connect_check_true_iff_witness :
    ssl_post_connect_check (sslWith certTwoSan 0) (some (str "x.example.com")) = true ∧
    ssl_post_connect_check (sslWith certTwoSan 18) (some (str "x.example.com")) = false ∧
    ssl_post_connect_check (sslWith certTwoSan 0) (some (str "z.example.com")) = false :=
  ⟨(ssl_post_connect_check_true_iff (sslWith certTwoSan 0) (some (str "x.example.com"))
      (by decide)).mpr
      ⟨str "x.example.com", certTwoSan, rfl, rfl, Or.inr ⟨by decide, by decide⟩, rfl⟩,
    by decide, by decide⟩

/-- C3: a name that does not begin with the two bytes `*.` matches a hostname
exactly when its length is the length of the hostname string and its `len`
bytes are, one for one, the bytes of the hostname string. -/
theorem wildcard_match_plain_iff_bytes_eq (pattern : Nat → Nat) (hostname : List Nat)
    (len : Nat) (hplain : ¬ (1 < len ∧ pattern 0 = STAR ∧ pattern 1 = DOT)) :
    wildcard_match pattern hostname len = true ↔
      (len = (cstr hostname).length ∧ bytes pattern len = cstr hostname) := by
  rw [wildcard_match_plain_iff pattern hostname len hplain]
  constructor
  · intro h
    refine ⟨?_, h⟩
    rw [← h, bytes_length]
  · exact fun h => h.2

theorem wildcard_match_plain_iff_bytes_eq_witness :
    ¬ (1 < 11 ∧ mem (str "example.com") 0 = STAR ∧ mem (str "example.com") 1 = DOT) ∧
    (wildcard_match (mem (str "example.com")) (str "example.com") 11 = true ↔
      (11 = (cstr (str "example.com")).length ∧
        bytes (mem (str "example.com")) 11 = cstr (str "example.com"))) :=
  ⟨by decide, wildcard_match_plain_iff_bytes_eq _ _ _ (by decide)⟩

/-- C4: for an accepted wildcard name `*.` followed by `R` (no `*` in `R`, and
a `.` in `R` followed inside `R` by a non-zero byte), the match succeeds
exactly when the hostname string is a first label without `.`, then a `.`,
then exactly the bytes of `R`. -/
theorem wildcard_match_wildcard_iff_suffix_eq (pattern : Nat → Nat) (hostname : List Nat)
    (len : Nat) (hlen : 1 < len) (h0 : pattern 0 = STAR) (h1 : pattern 1 = DOT)
    (hstar : ∀ i, 2 ≤ i → i < len → pattern i ≠ STAR)
    (hdot : ∃ i, 2 ≤ i ∧ i + 1 < len ∧ pattern i = DOT ∧ pattern (i + 1) ≠ 0) :
    wildcard_match pattern hostname len = true ↔
      ∃ label, DOT ∉ label ∧
        cstr hostname = label ++ DOT :: bytes (fun i => pattern (i + 2)) (len - 2) := by
  have hD : DOT ≠ 0 := by decide
  rw [wildcard_match_wild_iff pattern hostname len ⟨hlen, h0, h1⟩]
  constructor
  · rintro ⟨_, dot, _, _, _, t, ht, hb⟩
    obtain ⟨pre, hpre, heq⟩ := strchr_eq_some hostname t DOT hD ht
    exact ⟨pre, hpre, by rw [heq, hb]⟩
  · rintro ⟨label, hlabel, heq⟩
    have hnostar : memchr (fun i => pattern (i + 2)) STAR (len - 2) = none :=
      (memchr_eq_none_iff _ _ _).mpr (fun i hi => hstar (i + 2) (by omega) (by omega))
    obtain ⟨i, hi2, hilen, hid, _⟩ := hdot
    have hsome : (memchr (fun i => pattern (i + 2)) DOT (len - 2)).isSome = true :=
      (memchr_isSome_iff _ _ _).mpr ⟨i - 2, by omega, by
        have : i - 2 + 2 = i := by omega
        simp only [this]; exact hid⟩
    obtain ⟨dot, hdot⟩ := Option.isSome_iff_exists.mp hsome
    obtain ⟨hd1, _, hd3⟩ := memchr_eq_some _ _ _ _ hdot
    have hle : dot ≤ i - 2 := by
      by_contra hc
      have hlt : i - 2 < dot := by omega
      have := hd3 (i - 2) hlt
      have h2 : i - 2 + 2 = i := by omega
      simp only [h2] at this
      exact this hid
    have hnz : pattern (dot + 1 + 2) ≠ 0 := by
      intro hz
      have hmem : (0 : Nat) ∈ bytes (fun i => pattern (i + 2)) (len - 2) :=
        (mem_bytes_iff _ _ _).mpr ⟨dot + 1, by omega, hz⟩
      have : (0 : Nat) ∈ cstr hostname := by
        rw [heq]
        exact List.mem_append_right _ (List.mem_cons_of_mem _ hmem)
      exact zero_not_mem_cstr _ this
    have hin : DOT ∈ cstr hostname := by
      rw [heq]
      exact List.mem_append_right _ (List.mem_cons_self _ _)
    cases ht : strchr hostname DOT with
    | none => exact absurd hin ((strchr_eq_none_iff hostname DOT hD).mp ht)
    | some t =>
      obtain ⟨pre, hpre, heq'⟩ := strchr_eq_some hostname t DOT hD ht
      have hsuf := split_at_first_unique DOT label pre _ _ hlabel hpre (heq.symm.trans heq')
      exact ⟨hnostar, dot, hdot, by omega, hnz, t, rfl, hsuf⟩

theorem wildcard_match_wildcard_iff_suffix_eq_witness :
    wildcard_match (mem (str "*.example.com")) (str "www.example.com") 13 = true ∧
    wildcard_match (mem (str "*.example.com")) (str "example") 13 = false ∧
    wildcard_match (mem (str "*.example.com")) (str "a.b.example.com") 13 = false :=
  ⟨(wildcard_match_wildcard_iff_suffix_eq (mem (str "*.example.com")) (str "www.example.com")
      13 (by decide) (by decide) (by decide) (by decide) ⟨9, by decide⟩).mpr
      ⟨str "www", by decide, by decide⟩,
    by decide, by decide⟩

/-- C5 (evaluation): the name `*..com` has a single label, `com`, after its
leading `*.`, and yet it matches the hostname `a..com`. -/
theorem wildcard_match_one_label_accepted :
    num_components (fun i => mem (str "*..com") (i + 2)) (6 - 2) = 1 ∧
    wildcard_match (mem (str "*..com")) (str "a..com") 6 = true := by
  decide

/-- C6: a name that begins with `*.` and has another `*` among its later bytes
matches no hostname. -/
theorem wildcard_match_second_star_false (pattern : Nat → Nat) (hostname : List Nat)
    (len : Nat) (h0 : pattern 0 = STAR) (h1 : pattern 1 = DOT)
    (hstar : ∃ i, 2 ≤ i ∧ i < len ∧ pattern i = STAR) :
    wildcard_match pattern hostname len = false := by
  obtain ⟨i, hi2, hilen, his⟩ := hstar
  have hw : len > 1 ∧ pattern 0 = STAR ∧ pattern 1 = DOT := ⟨by omega, h0, h1⟩
  cases hm : wildcard_match pattern hostname len with
  | false => rfl
  | true =>
    obtain ⟨hnone, _⟩ := (wildcard_match_wild_iff pattern hostname len hw).mp hm
    have := (memchr_eq_none_iff _ _ _).mp hnone (i - 2) (by omega)
    have h2 : i - 2 + 2 = i := by omega
    simp only [h2] at this
    exact absurd his this

theorem wildcard_match_second_star_false_witness :
    wildcard_match (mem (str "*.a*.com")) (str "*.a*.com") 8 = false :=
  wildcard_match_second_star_false (mem (str "*.a*.com")) (str "*.a*.com") 8
    (by decide) (by decide) ⟨3, by decide⟩

/-- C7 (evaluation): the name `*.com.` of length 6 matches the hostname
`a.com.` when the byte stored after it is `x` and does not when that byte is 0,
although the two buffers hold the same 6 name bytes. -/
theorem wildcard_match_reads_past_len :
    bytes (mem (str "*.com.x")) 6 = bytes (mem (str "*.com.")) 6 ∧
    wildcard_match (mem (str "*.com.x")) (str "a.com.") 6 = true ∧
    wildcard_match (mem (str "*.com.")) (str "a.com.") 6 = false := by
  decide

/-- C8: a name with a zero byte among its `len` bytes matches no hostname. -/
theorem wildcard_match_embedded_nul_false (pattern : Nat → Nat) (hostname : List Nat)
    (len : Nat) (hnul : ∃ i, i < len ∧ pattern i = 0) :
    wildcard_match pattern hostname len = false := by
  obtain ⟨i, hi, h0⟩ := hnul
  cases hm : wildcard_match pattern hostname len with
  | false => rfl
  | true => exact absurd h0 (wildcard_match_no_nul pattern hostname len hm i hi)

theorem wildcard_match_embedded_nul_false_witness :
    wildcard_match (mem [119, 119, 119, 0, 46, 99, 111, 109]) (str "www") 8 = false :=
  wildcard_match_embedded_nul_false (mem [119, 119, 119, 0, 46, 99, 111, 109]) (str "www") 8
    ⟨3, by decide⟩

theorem less_specific_iff (a : Nat → Nat) (al : Nat) (b : Nat → Nat) (bl : Nat) :
    less_specific a al b bl = true ↔
      ((memchr a STAR al).isSome = true ∧ (memchr b STAR bl).isSome = false) ∨
      ((memchr a STAR al).isSome = (memchr b STAR bl).isSome ∧
        num_components a al < num_components b bl) := by
  unfold less_specific
  cases memchr a STAR al <;> cases memchr b STAR bl <;> simp

/-- C10: `less_specific` is a strict weak ordering of the patterns: it is
irreflexive and transitive and its incomparability is transitive; a pattern
with a `*` is strictly less specific than a pattern without; and of two
patterns that both have or both lack a `*`, the first is less specific exactly
when it has fewer components. -/
theorem less_specific_strict_weak_order :
    (∀ a al, less_specific a al a al = false) ∧
    (∀ a al b bl c cl, less_specific a al b bl = true → less_specific b bl c cl = true →
      less_specific a al c cl = true) ∧
    (∀ a al b bl c cl,
      (less_specific a al b bl = false ∧ less_specific b bl a al = false) →
      (less_specific b bl c cl = false ∧ less_specific c cl b bl = false) →
      (less_specific a al c cl = false ∧ less_specific c cl a al = false)) ∧
    (∀ a al b bl, (∃ i, i < al ∧ a i = STAR) → (∀ i, i < bl → b i ≠ STAR) →
      (less_specific a al b bl = true ∧ less_specific b bl a al = false)) ∧
    (∀ a al b bl, ((∃ i, i < al ∧ a i = STAR) ↔ (∃ i, i < bl ∧ b i = STAR)) →
      (less_specific a al b bl = true ↔ num_components a al < num_components b bl)) := by
  refine ⟨?_, ?_, ?_, ?_, ?_⟩
  · intro a al
    rw [← Bool.not_eq_true, less_specific_iff]
    cases (memchr a STAR al).isSome <;> simp
  · intro a al b bl c cl
    rw [less_specific_iff, less_specific_iff, less_specific_iff]
    cases (memchr a STAR al).isSome <;> cases (memchr b STAR bl).isSome <;>
      cases (memchr c STAR cl).isSome <;> simp <;> omega
  · intro a al b bl c cl
    simp only [← Bool.not_eq_true, less_specific_iff]
    cases (memchr a STAR al).isSome <;> cases (memchr b STAR bl).isSome <;>
      cases (memchr c STAR cl).isSome <;> simp <;> omega
  · intro a al b bl ha hb
    have ha' := (memchr_isSome_iff a STAR al).mpr ha
    have hb' : (memchr b STAR bl).isSome = false := by
      rw [(memchr_eq_none_iff b STAR bl).mpr hb]; rfl
    rw [← Bool.not_eq_true (less_specific b bl a al), less_specific_iff, less_specific_iff,
      ha', hb']
    simp
  · intro a al b bl h
    rw [← memchr_isSome_iff, ← memchr_isSome_iff] at h
    rw [less_specific_iff]
    cases ha : (memchr a STAR al).isSome <;> cases hb : (memchr b STAR bl).isSome <;>
      simp [ha, hb] at h ⊢

theorem less_specific_strict_weak_order_witness :
    less_specific (mem (str "*.a.b.c")) 7 (mem (str "a")) 1 = true ∧
    less_specific (mem (str "a")) 1 (mem (str "*.a.b.c")) 7 = false :=
  less_specific_strict_weak_order.2.2.2.1 (mem (str "*.a.b.c")) 7 (mem (str "a")) 1
    ⟨0, by decide⟩ (by decide)

/-! ## The most specific commonName -/

theorem less_specific_irrefl (a : Nat → Nat) (al : Nat) : less_specific a al a al = false := by
  rw [← Bool.not_eq_true, less_specific_iff]
  cases (memchr a STAR al).isSome <;> simp

theorem less_specific_trans (a : Nat → Nat) (al : Nat) (b : Nat → Nat) (bl : Nat)
    (c : Nat → Nat) (cl : Nat) (hab : less_specific a al b bl = true)
    (hbc : less_specific b bl c cl = true) : less_specific a al c cl = true := by
  rw [less_specific_iff] at hab hbc ⊢
  revert hab hbc
  cases (memchr a STAR al).isSome <;> cases (memchr b STAR bl).isSome <;>
    cases (memchr c STAR cl).isSome <;> simp <;> omega

theorem less_specific_neg_trans (a : Nat → Nat) (al : Nat) (b : Nat → Nat) (bl : Nat)
    (c : Nat → Nat) (cl : Nat) (hab : less_specific a al b bl = false)
    (hbc : less_specific b bl c cl = false) : less_specific a al c cl = false := by
  rw [← Bool.not_eq_true, less_specific_iff] at hab hbc ⊢
  revert hab hbc
  cases (memchr a STAR al).isSome <;> cases (memchr b STAR bl).isSome <;>
    cases (memchr c STAR cl).isSome <;> simp <;> omega

/-- The loop of `most_specific_commonname`, started with a best entry `b`, ends
with an entry `r` of the visited sequence such that no visited entry is more
specific than `r` and every entry visited after `r` is less specific. -/
theorem most_specific_loop_some (l : List X509_NAME_ENTRY) (b : ASN1_STRING) :
    ∃ r pre post, most_specific_loop l (some b) = some r ∧
      b :: cn_values l = pre ++ r :: post ∧
      (∀ x ∈ b :: cn_values l, less_specific r.data r.length x.data x.length = false) ∧
      (∀ x ∈ post, less_specific x.data x.length r.data r.length = true) := by
  induction l generalizing b with
  | nil =>
    refine ⟨b, [], [], rfl, rfl, ?_, ?_⟩
    · intro x hx
      simp only [cn_values, List.filter_nil, List.map_nil, List.mem_singleton] at hx
      subst hx
      exact less_specific_irrefl _ _
    · simp
  | cons e es ih =>
    by_cases he : e.nid = NID_commonName
    · have hcn : cn_values (e :: es) = e.value :: cn_values es := by
        simp [cn_values, he]
      by_cases hls : less_specific e.value.data e.value.length b.data b.length = true
      · obtain ⟨r, pre, post, h1, h2, h3, h4⟩ := ih b
        have hloop : most_specific_loop (e :: es) (some b) = some r := by
          simp only [most_specific_loop, he, if_true, hls, Bool.not_true, Bool.false_eq_true,
            if_false]
          exact h1
        have hrb : less_specific r.data r.length b.data b.length = false :=
          h3 b (List.mem_cons_self _ _)
        have hre : less_specific r.data r.length e.value.data e.value.length = false := by
          rw [← Bool.not_eq_true]
          intro hc
          have := less_specific_trans _ _ _ _ _ _ hc hls
          rw [hrb] at this
          exact Bool.false_ne_true this
        cases pre with
        | nil =>
          simp only [List.nil_append, List.cons.injEq] at h2
          obtain ⟨hbr, hpost⟩ := h2
          subst hbr
          refine ⟨b, [], e.value :: cn_values es, hloop, by rw [hcn]; rfl, ?_, ?_⟩
          · intro x hx
            rw [hcn] at hx
            rcases List.mem_cons.mp hx with rfl | hx
            · exact hrb
            · rcases List.mem_cons.mp hx with rfl | hx
              · exact hre
              · exact h3 x (List.mem_cons_of_mem _ hx)
          · intro x hx
            rcases List.mem_cons.mp hx with rfl | hx
            · exact hls
            · exact h4 x (hpost ▸ hx)
        | cons p ps =>
          simp only [List.cons_append, List.cons.injEq] at h2
          obtain ⟨hbp, hrest⟩ := h2
          subst hbp
          refine ⟨r, b :: e.value :: ps, post, hloop, by rw [hcn, hrest]; rfl, ?_, h4⟩
          intro x hx
          rw [hcn] at hx
          rcases List.mem_cons.mp hx with rfl | hx
          · exact hrb
          · rcases List.mem_cons.mp hx with rfl | hx
            · exact hre
            · exact h3 x (List.mem_cons_of_mem _ hx)
      · have hls' : less_specific e.value.data e.value.length b.data b.length = false := by
          simpa using hls
        obtain ⟨r, pre, post, h1, h2, h3, h4⟩ := ih e.value
        have hloop : most_specific_loop (e :: es) (some b) = some r := by
          simp only [most_specific_loop, he, if_true, hls', Bool.not_false]
          exact h1
        refine ⟨r, b :: pre, post, hloop, by rw [hcn, h2]; rfl, ?_, h4⟩
        intro x hx
        rw [hcn] at hx
        rcases List.mem_cons.mp hx with rfl | hx
        · exact less_specific_neg_trans _ _ _ _ _ _ (h3 _ (List.mem_cons_self _ _)) hls'
        · exact h3 x hx
    · have hcn : cn_values (e :: es) = cn_values es := by
        simp [cn_values, he]
      obtain ⟨r, pre, post, h1, h2, h3, h4⟩ := ih b
      refine ⟨r, pre, post, ?_, by rw [hcn]; exact h2, by rw [hcn]; exact h3, h4⟩
      simp only [most_specific_loop, he, if_false]
      exact h1

theorem most_specific_loop_none (l : List X509_NAME_ENTRY) :
    (cn_values l = [] ∧ most_specific_loop l none = none) ∨
    (∃ c rest, cn_values l = c :: cn_values rest ∧
      most_specific_loop l none = most_specific_loop rest (some c)) := by
  induction l with
  | nil => exact Or.inl ⟨rfl, rfl⟩
  | cons e es ih =>
    by_cases he : e.nid = NID_commonName
    · exact Or.inr ⟨e.value, es, by simp [cn_values, he], by simp [most_specific_loop, he]⟩
    · have hcn : cn_values (e :: es) = cn_values es := by simp [cn_values, he]
      have hl : most_specific_loop (e :: es) none = most_specific_loop es none := by
        simp [most_specific_loop, he]
      rw [hcn, hl]
      exact ih

/-- C11: for a subject with at least one commonName entry,
`most_specific_commonname` returns the length and bytes of an entry `e` such
that no commonName entry is more specific than `e` and every commonName entry
after `e` is less specific than `e`; for a subject without commonName entry it
returns -1 and no bytes, and `cert_match_commonname` fails. -/
theorem most_specific_commonname_last_maximal (subject : List X509_NAME_ENTRY) :
    (cn_values subject ≠ [] →
      ∃ e pre post, cn_values subject = pre ++ e :: post ∧
        (∀ x ∈ cn_values subject, less_specific e.data e.length x.data x.length = false) ∧
        (∀ x ∈ post, less_specific x.data x.length e.data e.length = true) ∧
        most_specific_commonname subject = ((e.length : Int), some e.data)) ∧
    (cn_values subject = [] →
      most_specific_commonname subject = (-1, none) ∧
      ∀ (cert : X509) (hostname : List Nat), cert.subject = some subject →
        cert_match_commonname cert hostname = false) := by
  rcases most_specific_loop_none subject with ⟨h1, h2⟩ | ⟨c, rest, h1, h2⟩
  · refine ⟨fun hne => absurd h1 hne, fun _ => ?_⟩
    have hm : most_specific_commonname subject = (-1, none) := by
      simp [most_specific_commonname, h2]
    refine ⟨hm, ?_⟩
    intro cert hostname hs
    simp [cert_match_commonname, hs, hm]
  · refine ⟨fun _ => ?_, fun he => ?_⟩
    · obtain ⟨r, pre, post, g1, g2, g3, g4⟩ := most_specific_loop_some rest c
      refine ⟨r, pre, post, by rw [h1]; exact g2, by rw [h1]; exact g3, g4, ?_⟩
      simp [most_specific_commonname, h2, g1]
    · rw [h1] at he
      cases he

theorem most_specific_commonname_last_maximal_witness :
    most_specific_commonname
        [cnEntry "*.a.b.c", cnEntry "a.b", cnEntry "c.d", cnEntry "*.e.f"] =
      (3, some (asn1 "c.d").data) ∧
    cert_match_commonname ⟨[], some []⟩ (str "localhost") = false :=
  ⟨rfl,
   ((most_specific_commonname_last_maximal []).2 rfl).2 ⟨[], some []⟩ (str "localhost") rfl⟩

/-- C14: with the verify mode `SSL_VERIFY_NONE` the check returns true for every
hostname (present or not), peer certificate (present or not) and verification
result. -/
theorem ssl_post_connect_check_verify_none (ssl : SSL) (hostname : Option (List Nat))
    (hmode : ssl.verify_mode = SSL_VERIFY_NONE) :
    ssl_post_connect_check ssl hostname = true := by
  simp [ssl_post_connect_check, hmode]

theorem ssl_post_connect_check_verify_none_witness :
    ssl_post_connect_check ⟨SSL_VERIFY_NONE, none, 18⟩ none = true ∧
    ssl_post_connect_check ⟨SSL_VERIFY_NONE, some certSanMismatch, 18⟩
      (some (str "z.example.org")) = true :=
  ⟨ssl_post_connect_check_verify_none ⟨SSL_VERIFY_NONE, none, 18⟩ none rfl,
    ssl_post_connect_check_verify_none ⟨SSL_VERIFY_NONE, some certSanMismatch, 18⟩
      (some (str "z.example.org")) rfl⟩

/-- C15: when verification is requested and no hostname is given, the check
returns false, whatever the peer certificate and the verification result. -/
theorem ssl_post_connect_check_no_hostname (ssl : SSL)
    (hmode : ssl.verify_mode ≠ SSL_VERIFY_NONE) :
    ssl_post_connect_check ssl none = false := by
  simp [ssl_post_connect_check, hmode]

theorem ssl_post_connect_check_no_hostname_witness :
    ssl_post_connect_check (sslWith certTwoSan 0) none = false :=
  ssl_post_connect_check_no_hostname (sslWith certTwoSan 0) (by decide)

/-! ## The fingerprint -/

theorem length_eq_twenty (d : List Nat) (hd : d.length = 20) :
    ∃ b0 b1 b2 b3 b4 b5 b6 b7 b8 b9 b10 b11 b12 b13 b14 b15 b16 b17 b18 b19, d = [b0, b1, b2, b3, b4, b5, b6, b7, b8, b9, b10, b11, b12, b13, b14, b15, b16, b17, b18, b19] := by
  match d, hd with
  | [b0, b1, b2, b3, b4, b5, b6, b7, b8, b9, b10, b11, b12, b13, b14, b15, b16, b17, b18, b19], _ => exact ⟨b0, b1, b2, b3, b4, b5, b6, b7, b8, b9, b10, b11, b12, b13, b14, b15, b16, b17, b18, b19, rfl⟩

theorem hex_upper_eq_table (k : Nat) (hk : k < 16) :
    hex_upper k = (str "0123456789ABCDEF").getD k 0 := by
  interval_cases k <;> decide

theorem hex_upper_ne_zero (k : Nat) : hex_upper k ≠ 0 := by
  unfold hex_upper
  split <;> omega

theorem bytes_eq_iff (f : Nat → Nat) (n : Nat) (l : List Nat) :
    bytes f n = l ↔ l.length = n ∧ ∀ j, j < n → f j = l.getD j 0 := by
  induction n generalizing f l with
  | zero =>
    cases l with
    | nil => simp [bytes]
    | cons x xs => simp [bytes]
  | succ n ih =>
    cases l with
    | nil => simp [bytes]
    | cons x xs =>
      simp only [bytes, List.cons.injEq, ih, List.length_cons, add_left_inj]
      constructor
      · rintro ⟨h0, hl, hj⟩
        refine ⟨hl, ?_⟩
        intro j hjn
        cases j with
        | zero => simpa using h0
        | succ j => simpa using hj j (by omega)
      · rintro ⟨hl, hj⟩
        refine ⟨by simpa using hj 0 (by omega), hl, ?_⟩
        intro j hjn
        simpa using hj (j + 1) (by omega)

theorem overlay_overlay (f : Nat → Nat) (p : Nat) (t u : List Nat) (hu : u ≠ []) :
    overlay (overlay f p t) (p + t.length) u = overlay f p (t ++ u) := by
  have hpos : 0 < u.length := List.length_pos.mpr hu
  funext j
  simp only [overlay, List.length_append]
  by_cases h1 : j < p
  · have h2 : j < p + t.length := by omega
    rw [if_pos h2, if_pos h1, if_pos h1]
  · by_cases h2 : j < p + t.length
    · have h3 : j < p + (t.length + u.length) := by omega
      have h4 : j - p < t.length := by omega
      rw [if_pos h2, if_neg h1, if_pos h2, if_neg h1, if_pos h3, List.getD_append _ _ _ _ h4]
    · by_cases h3 : j < p + t.length + u.length
      · have h4 : j < p + (t.length + u.length) := by omega
        have h5 : t.length ≤ j - p := by omega
        have h6 : j - (p + t.length) = j - p - t.length := by omega
        rw [if_neg h2, if_pos h3, if_neg h1, if_pos h4, List.getD_append_right _ _ _ _ h5, h6]
      · have h4 : ¬ j < p + (t.length + u.length) := by omega
        have h5 : ¬ j = p + t.length := by omega
        rw [if_neg h2, if_neg h3, if_neg h1, if_neg h4, if_neg h1, if_neg h2, if_neg h5]
        by_cases h6 : j = p + t.length + u.length
        · have h7 : j = p + (t.length + u.length) := by omega
          rw [if_pos h6, if_pos h7]
        · have h7 : ¬ j = p + (t.length + u.length) := by omega
          rw [if_neg h6, if_neg h7]

theorem put3_eq_overlay (f : Nat → Nat) (p a b : Nat) :
    Function.update (Function.update (Function.update f p a) (p + 1) b) (p + 2) 0 =
      overlay f p [a, b] := by
  funext j
  simp only [overlay, Function.update_apply, List.length_cons, List.length_nil]
  by_cases h0 : j = p
  · subst h0; simp
  by_cases h1 : j = p + 1
  · subst h1; simp
  by_cases h2 : j = p + 2
  · subst h2; simp
  by_cases h3 : j < p
  · simp [h0, h1, h2, h3]
  · have h4 : ¬ j < p + 2 := by omega
    simp [h0, h1, h2, h3, h4]

theorem put4_eq_overlay (f : Nat → Nat) (p a b : Nat) :
    Function.update (Function.update (Function.update (Function.update f p 32) (p + 1) a)
      (p + 1 + 1) b) (p + 1 + 2) 0 = overlay f p [32, a, b] := by
  funext j
  simp only [overlay, Function.update_apply, List.length_cons, List.length_nil]
  by_cases h0 : j = p
  · subst h0
    have e1 : ¬ j = j + 1 + 2 := by omega
    have e2 : ¬ j = j + 1 + 1 := by omega
    simp [e1, e2]
  by_cases h1 : j = p + 1
  · subst h1; simp
  by_cases h2 : j = p + 2
  · subst h2; simp
  by_cases h3 : j = p + 3
  · subst h3; simp
  by_cases h4 : j < p
  · simp [h0, h1, h2, h3, h4]
  · have h5 : ¬ j < p + 3 := by omega
    simp [h0, h1, h2, h3, h4, h5]

theorem fp_loop_spec (d : List Nat) (i p : Nat) (buf : OutBuf) (hd : d ≠ []) :
    (fp_loop d i p buf).1 = p + (fp_text_from i d).length ∧
    (fp_loop d i p buf).2.data = overlay buf.data p (fp_text_from i d) := by
  induction d generalizing i p buf with
  | nil => exact absurd rfl hd
  | cons byte rest ih =>
    by_cases hsp : i > 0 ∧ i % 2 = 0
    · have hstep : (Snprintf_02X (buf.put p 32) (p + 1) byte).data =
          overlay buf.data p
            [32, hex_upper (byte % 256 / 16), hex_upper (byte % 256 % 16)] := by
        simp only [Snprintf_02X, OutBuf.put]
        exact put4_eq_overlay _ _ _ _
      cases rest with
      | nil =>
        rw [fp_loop, if_pos hsp, fp_loop, fp_text_from, if_pos hsp, fp_text_from]
        exact ⟨by simp only [List.length_append, List.length_cons, List.length_nil],
          hstep⟩
      | cons c cs =>
        obtain ⟨ih1, ih2⟩ := ih (i + 1) (p + 1 + 2) (Snprintf_02X (buf.put p 32) (p + 1) byte)
          (by simp)
        have hne : fp_text_from (i + 1) (c :: cs) ≠ [] := by
          simp [fp_text_from]
        have hov := overlay_overlay buf.data p
          [32, hex_upper (byte % 256 / 16), hex_upper (byte % 256 % 16)]
          (fp_text_from (i + 1) (c :: cs)) hne
        rw [fp_loop, if_pos hsp, ih1, ih2, hstep]
        rw [show fp_text_from i (byte :: c :: cs) =
          [32, hex_upper (byte % 256 / 16), hex_upper (byte % 256 % 16)] ++
            fp_text_from (i + 1) (c :: cs) by
              rw [fp_text_from, if_pos hsp]; rfl]
        refine ⟨?_, ?_⟩
        · simp only [List.length_append, List.length_cons, List.length_nil]
          omega
        · rw [← hov]
          rfl
    · have hstep : (Snprintf_02X buf p byte).data =
          overlay buf.data p [hex_upper (byte % 256 / 16), hex_upper (byte % 256 % 16)] := by
        simp only [Snprintf_02X, OutBuf.put]
        exact put3_eq_overlay _ _ _ _
      cases rest with
      | nil =>
        rw [fp_loop, if_neg hsp, fp_loop, fp_text_from, if_neg hsp, fp_text_from]
        exact ⟨by simp only [List.length_append, List.length_cons, List.length_nil],
          hstep⟩
      | cons c cs =>
        obtain ⟨ih1, ih2⟩ := ih (i + 1) (p + 2) (Snprintf_02X buf p byte) (by simp)
        have hne : fp_text_from (i + 1) (c :: cs) ≠ [] := by
          simp [fp_text_from]
        have hov := overlay_overlay buf.data p
          [hex_upper (byte % 256 / 16), hex_upper (byte % 256 % 16)]
          (fp_text_from (i + 1) (c :: cs)) hne
        rw [fp_loop, if_neg hsp, ih1, ih2, hstep]
        rw [show fp_text_from i (byte :: c :: cs) =
          [hex_upper (byte % 256 / 16), hex_upper (byte % 256 % 16)] ++
            fp_text_from (i + 1) (c :: cs) by
              rw [fp_text_from, if_neg hsp]; rfl]
        refine ⟨?_, ?_⟩
        · simp only [List.length_append, List.length_cons, List.length_nil]
          omega
        · rw [← hov]
          rfl

theorem hex_digits_eq (b : Nat) (hb : b < 256) :
    hex_upper (b % 256 / 16) = (str "0123456789ABCDEF").getD (b / 16) 0 ∧
    hex_upper (b % 256 % 16) = (str "0123456789ABCDEF").getD (b % 16) 0 := by
  have h1 : b % 256 = b := Nat.mod_eq_of_lt hb
  rw [h1]
  exact ⟨hex_upper_eq_table _ (by omega), hex_upper_eq_table _ (by omega)⟩

theorem fp_text_from_twenty (d : List Nat) (hd : d.length = 20) (hbytes : ∀ b ∈ d, b < 256) :
    fp_text_from 0 d = fp_text_grouped d ∧ (fp_text_from 0 d).length = 49 := by
  obtain ⟨b0, b1, b2, b3, b4, b5, b6, b7, b8, b9, b10, b11, b12, b13, b14, b15, b16, b17, b18, b19, rfl⟩ := length_eq_twenty d hd
  simp only [List.mem_cons, List.mem_singleton, forall_eq_or_imp, forall_eq, List.not_mem_nil,
    false_imp_iff, implies_true, and_true] at hbytes
  obtain ⟨h0, h1, h2, h3, h4, h5, h6, h7, h8, h9, h10, h11, h12, h13, h14, h15, h16, h17, h18, h19⟩ := hbytes
  refine ⟨?_, rfl⟩
  have e : fp_text_from 0 [b0, b1, b2, b3, b4, b5, b6, b7, b8, b9, b10, b11, b12, b13, b14, b15, b16, b17, b18, b19] =
      [hex_upper (b0 % 256 / 16), hex_upper (b0 % 256 % 16), hex_upper (b1 % 256 / 16), hex_upper (b1 % 256 % 16), 32, hex_upper (b2 % 256 / 16), hex_upper (b2 % 256 % 16), hex_upper (b3 % 256 / 16), hex_upper (b3 % 256 % 16), 32, hex_upper (b4 % 256 / 16), hex_upper (b4 % 256 % 16), hex_upper (b5 % 256 / 16), hex_upper (b5 % 256 % 16), 32, hex_upper (b6 % 256 / 16), hex_upper (b6 % 256 % 16), hex_upper (b7 % 256 / 16), hex_upper (b7 % 256 % 16), 32, hex_upper (b8 % 256 / 16), hex_upper (b8 % 256 % 16), hex_upper (b9 % 256 / 16), hex_upper (b9 % 256 % 16), 32, hex_upper (b10 % 256 / 16), hex_upper (b10 % 256 % 16), hex_upper (b11 % 256 / 16), hex_upper (b11 % 256 % 16), 32, hex_upper (b12 % 256 / 16), hex_upper (b12 % 256 % 16), hex_upper (b13 % 256 / 16), hex_upper (b13 % 256 % 16), 32, hex_upper (b14 % 256 / 16), hex_upper (b14 % 256 % 16), hex_upper (b15 % 256 / 16), hex_upper (b15 % 256 % 16), 32, hex_upper (b16 % 256 / 16), hex_upper (b16 % 256 % 16), hex_upper (b17 % 256 / 16), hex_upper (b17 % 256 % 16), 32, hex_upper (b18 % 256 / 16), hex_upper (b18 % 256 % 16), hex_upper (b19 % 256 / 16), hex_upper (b19 % 256 % 16)] := rfl
  rw [e]
  rw [(hex_digits_eq b0 h0).1, (hex_digits_eq b0 h0).2, (hex_digits_eq b1 h1).1, (hex_digits_eq b1 h1).2, (hex_digits_eq b2 h2).1, (hex_digits_eq b2 h2).2, (hex_digits_eq b3 h3).1, (hex_digits_eq b3 h3).2, (hex_digits_eq b4 h4).1, (hex_digits_eq b4 h4).2, (hex_digits_eq b5 h5).1, (hex_digits_eq b5 h5).2, (hex_digits_eq b6 h6).1, (hex_digits_eq b6 h6).2, (hex_digits_eq b7 h7).1, (hex_digits_eq b7 h7).2, (hex_digits_eq b8 h8).1, (hex_digits_eq b8 h8).2, (hex_digits_eq b9 h9).1, (hex_digits_eq b9 h9).2, (hex_digits_eq b10 h10).1, (hex_digits_eq b10 h10).2, (hex_digits_eq b11 h11).1, (hex_digits_eq b11 h11).2, (hex_digits_eq b12 h12).1, (hex_digits_eq b12 h12).2, (hex_digits_eq b13 h13).1, (hex_digits_eq b13 h13).2, (hex_digits_eq b14 h14).1, (hex_digits_eq b14 h14).2, (hex_digits_eq b15 h15).1, (hex_digits_eq b15 h15).2, (hex_digits_eq b16 h16).1, (hex_digits_eq b16 h16).2, (hex_digits_eq b17 h17).1, (hex_digits_eq b17 h17).2, (hex_digits_eq b18 h18).1, (hex_digits_eq b18 h18).2, (hex_digits_eq b19 h19).1, (hex_digits_eq b19 h19).2]
  rfl

theorem hex_upper_not_mem_zero (d : List Nat) (i : Nat) : 0 ∉ fp_text_from i d := by
  induction d generalizing i with
  | nil => simp [fp_text_from]
  | cons b rest ih =>
    have h1 := hex_upper_ne_zero (b % 256 / 16)
    have h2 := hex_upper_ne_zero (b % 256 % 16)
    have h3 := ih (i + 1)
    simp only [fp_text_from]
    split <;> simp [h1.symm, h2.symm, h3]

/-- C12 (counterexample): for the sample digest the call returns the buffer
with a string of 49 characters, not the 59 characters of the spec's format, be
the constant `SHA1_STRING_LENGTH` 49 or 59. -/
theorem ssl_cert_fp_str_sha1_not_59_characters :
    (∃ buf, ssl_cert_fp_str_sha1 59 (some digest_sample) (mem []) 60 =
        FpResult.returned (some 0) buf ∧
      strlen (bytes buf.data 60) = 49 ∧
      cstr (bytes buf.data 60) ≠ fp_text_spec digest_sample) ∧
    (∃ buf, ssl_cert_fp_str_sha1 49 (some digest_sample) (mem []) 50 =
        FpResult.returned (some 0) buf ∧
      strlen (bytes buf.data 50) = 49 ∧
      cstr (bytes buf.data 50) ≠ fp_text_spec digest_sample) ∧
    (fp_text_spec digest_sample).length = 59 :=
  ⟨⟨_, rfl, by decide, by decide⟩, ⟨_, rfl, by decide, by decide⟩, by decide⟩

/-- C12 (amended): for every digest of 20 bytes, when the buffer length passes
the size check (`SHA1_STRING_LENGTH` being at least 49), the call returns the
buffer holding a string of exactly 49 characters followed by a terminator: the
20 bytes in order, each as two uppercase hexadecimal digits, with a single space
after every second byte but the last (40 digits and 9 spaces). -/
theorem ssl_cert_fp_str_sha1_grouped (K : Nat) (d : List Nat) (strbuf : Nat → Nat)
    (len : Nat) (hK : 49 ≤ K) (hlen : K + 1 ≤ len) (hd : d.length = 20)
    (hbytes : ∀ b ∈ d, b < 256) :
    ∃ buf, ssl_cert_fp_str_sha1 K (some d) strbuf len = FpResult.returned (some 0) buf ∧
      bytes buf.data 50 = fp_text_grouped d ++ [0] ∧
      (fp_text_grouped d).length = 49 ∧ 0 ∉ fp_text_grouped d := by
  obtain ⟨ht, hl⟩ := fp_text_from_twenty d hd hbytes
  have hne : d ≠ [] := by
    intro h; rw [h] at hd; simp at hd
  obtain ⟨hp, hdata⟩ := fp_loop_spec d 0 0 ⟨strbuf, []⟩ hne
  rw [hl] at hp
  have hlt : ¬ (len < K + 1) := by omega
  have hle : (fp_loop d 0 0 ⟨strbuf, []⟩).1 ≤ len := by rw [hp]; omega
  refine ⟨_, by simp only [ssl_cert_fp_str_sha1, hlt, if_false, hle, if_true]; rfl, ?_,
    by rw [← ht]; exact hl, by rw [← ht]; exact hex_upper_not_mem_zero d 0⟩
  rw [bytes_eq_iff]
  refine ⟨by rw [List.length_append, ← ht, hl]; rfl, ?_⟩
  intro j hj
  simp only [OutBuf.put, hp, hdata, Function.update_apply, overlay, hl, ← ht]
  by_cases h49 : j = 0 + 49
  · rw [if_pos h49, h49, List.getD_append_right _ _ _ _ (by rw [hl]), hl]
    rfl
  · have h1 : ¬ j < 0 := by omega
    have h2 : j < 0 + 49 := by omega
    rw [if_neg h49, if_neg h1, if_pos h2, List.getD_append _ _ _ _ (by rw [hl]; omega)]
    rfl

theorem ssl_cert_fp_str_sha1_grouped_witness :
    ∃ buf, ssl_cert_fp_str_sha1 49 (some digest_sample) (mem []) 50 =
        FpResult.returned (some 0) buf ∧
      bytes buf.data 50 = fp_text_grouped digest_sample ++ [0] ∧
      (fp_text_grouped digest_sample).length = 49 ∧ 0 ∉ fp_text_grouped digest_sample :=
  ssl_cert_fp_str_sha1_grouped 49 digest_sample (mem []) 50 (by decide) (by decide)
    (by decide) (by decide)

/-! ## The handshake driver -/

theorem ssl_handshake_ret (o : Options) (env : HandshakeEnv) (s : fdinfo) (hssl : o.ssl ≠ 0)
    (hsess : s.ssl ≠ none ∨ (new_ssl env s.fd).1 ≠ none) :
    (ssl_handshake o env (some s)).ret =
      some (if env.SSL_accept = 1 then NCAT_SSL_HANDSHAKE_COMPLETED
        else if env.SSL_accept = -1 ∧ env.SSL_get_error = SSL_ERROR_WANT_READ then
          NCAT_SSL_HANDSHAKE_PENDING_READ
        else if env.SSL_accept = -1 ∧ env.SSL_get_error = SSL_ERROR_WANT_WRITE then
          NCAT_SSL_HANDSHAKE_PENDING_WRITE
        else NCAT_SSL_HANDSHAKE_FAILED) := by
  unfold ssl_handshake
  simp only [hssl, if_false]
  cases hs : s.ssl with
  | some ssl =>
    simp only
    split_ifs <;> rfl
  | none =>
    rw [hs] at hsess
    have hne : (new_ssl env s.fd).1 ≠ none := hsess.resolve_left (fun h => h rfl)
    obtain ⟨x, hx⟩ := Option.ne_none_iff_exists'.mp hne
    simp only [hx]
    split_ifs <;> rfl

/-- C13: on a descriptor, with TLS enabled and a session at hand (the
descriptor's own, or one that `new_ssl` creates), the status returned is that of
the accept step: Completed if it returns 1, PendingRead if it returns -1 with
`SSL_ERROR_WANT_READ`, PendingWrite if it returns -1 with
`SSL_ERROR_WANT_WRITE`, and Failed in every other case. -/
theorem ssl_handshake_status_of_accept (o : Options) (env : HandshakeEnv) (s : fdinfo)
    (hssl : o.ssl ≠ 0) (hsess : s.ssl ≠ none ∨ (new_ssl env s.fd).1 ≠ none) :
    (env.SSL_accept = 1 →
      (ssl_handshake o env (some s)).ret = some NCAT_SSL_HANDSHAKE_COMPLETED) ∧
    (env.SSL_accept = -1 → env.SSL_get_error = SSL_ERROR_WANT_READ →
      (ssl_handshake o env (some s)).ret = some NCAT_SSL_HANDSHAKE_PENDING_READ) ∧
    (env.SSL_accept = -1 → env.SSL_get_error = SSL_ERROR_WANT_WRITE →
      (ssl_handshake o env (some s)).ret = some NCAT_SSL_HANDSHAKE_PENDING_WRITE) ∧
    (env.SSL_accept ≠ 1 →
      ¬ (env.SSL_accept = -1 ∧ (env.SSL_get_error = SSL_ERROR_WANT_READ ∨
        env.SSL_get_error = SSL_ERROR_WANT_WRITE)) →
      (ssl_handshake o env (some s)).ret = some NCAT_SSL_HANDSHAKE_FAILED) := by
  rw [ssl_handshake_ret o env s hssl hsess]
  refine ⟨?_, ?_, ?_, ?_⟩
  · intro h
    rw [if_pos h]
  · intro h1 h2
    have h : ¬ env.SSL_accept = 1 := by omega
    rw [if_neg h, if_pos ⟨h1, h2⟩]
  · intro h1 h2
    have h : ¬ env.SSL_accept = 1 := by omega
    have h3 : ¬ (env.SSL_accept = -1 ∧ env.SSL_get_error = SSL_ERROR_WANT_READ) := by
      rw [h2]
      intro hc
      exact absurd hc.2 (by decide)
    rw [if_neg h, if_neg h3, if_pos ⟨h1, h2⟩]
  · intro h1 h2
    have h3 : ¬ (env.SSL_accept = -1 ∧ env.SSL_get_error = SSL_ERROR_WANT_READ) :=
      fun hc => h2 ⟨hc.1, Or.inl hc.2⟩
    have h4 : ¬ (env.SSL_accept = -1 ∧ env.SSL_get_error = SSL_ERROR_WANT_WRITE) :=
      fun hc => h2 ⟨hc.1, Or.inr hc.2⟩
    rw [if_neg h1, if_neg h3, if_neg h4]

theorem ssl_handshake_status_of_accept_witness :
    (ssl_handshake (optionsWith none none none) (acceptEnv 0 SSL_ERROR_WANT_READ)
      (some freshDescriptor)).ret = some NCAT_SSL_HANDSHAKE_FAILED :=
  (ssl_handshake_status_of_accept (optionsWith none none none)
    (acceptEnv 0 SSL_ERROR_WANT_READ) freshDescriptor (by decide)
    (Or.inr (by decide))).2.2.2 (by decide) (by decide)

/-- C16: called with no descriptor, or with TLS disabled, `ssl_handshake`
returns -1, which is none of the four statuses, leaves the descriptor as it
is, and calls nothing but the debug log: no session is created and the accept
step is not made. -/
theorem ssl_handshake_usage_error (o : Options) (env : HandshakeEnv) (sinfo : Option fdinfo)
    (h : sinfo = none ∨ o.ssl = 0) :
    (ssl_handshake o env sinfo).ret = some (-1) ∧
    (ssl_handshake o env sinfo).sinfo = sinfo ∧
    (∀ c ∈ (ssl_handshake o env sinfo).calls, c = LibCall.logdebug) ∧
    (-1 : Int) ∉ [NCAT_SSL_HANDSHAKE_COMPLETED, NCAT_SSL_HANDSHAKE_PENDING_READ,
      NCAT_SSL_HANDSHAKE_PENDING_WRITE, NCAT_SSL_HANDSHAKE_FAILED] := by
  refine ⟨?_, ?_, ?_, by decide⟩
  · cases sinfo with
    | none => rfl
    | some s =>
      have h0 : o.ssl = 0 := h.resolve_left (by simp)
      simp [ssl_handshake, h0]
  · cases sinfo with
    | none => rfl
    | some s =>
      have h0 : o.ssl = 0 := h.resolve_left (by simp)
      simp [ssl_handshake, h0]
  · cases sinfo with
    | none =>
      intro c hc
      simp only [ssl_handshake] at hc
      split at hc
      · simpa using hc
      · simp at hc
    | some s =>
      have h0 : o.ssl = 0 := h.resolve_left (by simp)
      simp [ssl_handshake, h0]

theorem ssl_handshake_usage_error_witness :
    (ssl_handshake ⟨0, 1, 1, none, none, none, none⟩ (acceptEnv 1 0)
        (some freshDescriptor)).ret = some (-1) ∧
    (ssl_handshake ⟨0, 1, 1, none, none, none, none⟩ (acceptEnv 1 0)
        (some freshDescriptor)).calls = [] :=
  ⟨(ssl_handshake_usage_error ⟨0, 1, 1, none, none, none, none⟩ (acceptEnv 1 0)
      (some freshDescriptor) (Or.inr rfl)).1, by decide⟩

/-- C17 (counterexample): on a descriptor whose first invocation returned
Failed, a second invocation during which the accept step returns 1 returns
Completed. -/
theorem ssl_handshake_completed_after_failed :
    (ssl_handshake (optionsWith none none none) (acceptEnv 0 1) (some freshDescriptor)).ret =
      some NCAT_SSL_HANDSHAKE_FAILED ∧
    (ssl_handshake (optionsWith none none none) (acceptEnv 1 0)
      (ssl_handshake (optionsWith none none none) (acceptEnv 0 1)
        (some freshDescriptor)).sinfo).ret = some NCAT_SSL_HANDSHAKE_COMPLETED := by
  decide

/-- C17 (amended): after an invocation that returned Failed, a later invocation
on the descriptor it left returns the status of the accept step of that later
invocation alone: Failed exactly when that step returns neither 1 nor -1 with
`SSL_ERROR_WANT_READ` or `SSL_ERROR_WANT_WRITE`; and it makes no new session. -/
theorem ssl_handshake_after_failed (o : Options) (env1 env2 : HandshakeEnv) (s : fdinfo)
    (hfail : (ssl_handshake o env1 (some s)).ret = some NCAT_SSL_HANDSHAKE_FAILED) :
    (ssl_handshake o env2 (ssl_handshake o env1 (some s)).sinfo).ret =
      some (if env2.SSL_accept = 1 then NCAT_SSL_HANDSHAKE_COMPLETED
        else if env2.SSL_accept = -1 ∧ env2.SSL_get_error = SSL_ERROR_WANT_READ then
          NCAT_SSL_HANDSHAKE_PENDING_READ
        else if env2.SSL_accept = -1 ∧ env2.SSL_get_error = SSL_ERROR_WANT_WRITE then
          NCAT_SSL_HANDSHAKE_PENDING_WRITE
        else NCAT_SSL_HANDSHAKE_FAILED) ∧
    LibCall.SSL_new ∉ (ssl_handshake o env2 (ssl_handshake o env1 (some s)).sinfo).calls := by
  have hssl : o.ssl ≠ 0 := by
    intro h0
    simp [ssl_handshake, h0] at hfail
    exact absurd hfail (by decide)
  have hsinfo : ∃ s1 : fdinfo, (ssl_handshake o env1 (some s)).sinfo = some s1 ∧
      s1.ssl ≠ none := by
    unfold ssl_handshake at hfail ⊢
    simp only [hssl, if_false] at hfail ⊢
    cases hs : s.ssl with
    | some ssl =>
      simp only [hs] at hfail ⊢
      split_ifs <;> exact ⟨_, rfl, by simp⟩
    | none =>
      simp only [hs] at hfail ⊢
      cases hn : (new_ssl env1 s.fd).1 with
      | none => simp [hn] at hfail
      | some x =>
        simp only [hn]
        split_ifs <;> exact ⟨_, rfl, by simp⟩
  obtain ⟨s1, h1, h2⟩ := hsinfo
  rw [h1]
  refine ⟨ssl_handshake_ret o env2 s1 hssl (Or.inl h2), ?_⟩
  obtain ⟨x, hx⟩ := Option.ne_none_iff_exists'.mp h2
  unfold ssl_handshake
  simp only [hssl, if_false, hx]
  split_ifs <;> simp

theorem ssl_handshake_after_failed_witness :
    (ssl_handshake (optionsWith none none none) (acceptEnv (-1) 1)
      (ssl_handshake (optionsWith none none none) (acceptEnv 0 1)
        (some freshDescriptor)).sinfo).ret = some NCAT_SSL_HANDSHAKE_FAILED :=
  (ssl_handshake_after_failed (optionsWith none none none) (acceptEnv 0 1)
    (acceptEnv (-1) 1) freshDescriptor (by decide)).1

/-! ## Failure of the fingerprint formatter -/

theorem fp_text_from_length_twenty (d : List Nat) (hd : d.length = 20) :
    (fp_text_from 0 d).length = 49 := by
  obtain ⟨b0, b1, b2, b3, b4, b5, b6, b7, b8, b9, b10, b11, b12, b13, b14, b15, b16, b17, b18, b19, rfl⟩ := length_eq_twenty d hd
  rfl

/-- C18: `ssl_cert_fp_str_sha1` returns `NULL` and writes nothing when the
buffer length is below `SHA1_STRING_LENGTH + 1` or the digest computation
fails; otherwise, for a digest of 20 bytes and `SHA1_STRING_LENGTH` at least
the 49 characters of the text, it returns the caller's buffer. -/
theorem ssl_cert_fp_str_sha1_null_or_buffer (K : Nat) (digest : Option (List Nat))
    (strbuf : Nat → Nat) (len : Nat) :
    (len < K + 1 ∨ digest = none →
      ssl_cert_fp_str_sha1 K digest strbuf len = FpResult.returned none ⟨strbuf, []⟩) ∧
    (∀ d, ¬ len < K + 1 → digest = some d → d.length = 20 → 49 ≤ K →
      ∃ buf, ssl_cert_fp_str_sha1 K digest strbuf len = FpResult.returned (some 0) buf) := by
  constructor
  · intro h
    unfold ssl_cert_fp_str_sha1
    by_cases hlt : len < K + 1
    · rw [if_pos hlt]
    · have hd : digest = none := h.resolve_left hlt
      rw [if_neg hlt, hd]
  · intro d hlt hd h20 hK
    subst hd
    have hne : d ≠ [] := by
      intro h; rw [h] at h20; simp at h20
    obtain ⟨hp, _⟩ := fp_loop_spec d 0 0 ⟨strbuf, []⟩ hne
    rw [fp_text_from_length_twenty d h20] at hp
    have hle : (fp_loop d 0 0 ⟨strbuf, []⟩).1 ≤ len := by rw [hp]; omega
    exact ⟨_, by simp only [ssl_cert_fp_str_sha1, hlt, if_false, hle, if_true]; rfl⟩

theorem ssl_cert_fp_str_sha1_null_or_buffer_witness :
    ssl_cert_fp_str_sha1 49 (some digest_sample) (mem []) 49 =
      FpResult.returned none ⟨mem [], []⟩ ∧
    ssl_cert_fp_str_sha1 49 none (mem []) 50 = FpResult.returned none ⟨mem [], []⟩ ∧
    ∃ buf, ssl_cert_fp_str_sha1 49 (some digest_sample) (mem []) 50 =
      FpResult.returned (some 0) buf :=
  ⟨(ssl_cert_fp_str_sha1_null_or_buffer 49 (some digest_sample) (mem []) 49).1
      (Or.inl (by decide)),
    (ssl_cert_fp_str_sha1_null_or_buffer 49 none (mem []) 50).1 (Or.inr rfl),
    (ssl_cert_fp_str_sha1_null_or_buffer 49 (some digest_sample) (mem []) 50).2
      digest_sample (by decide) rfl (by decide) (by decide)⟩

/-! ## The generated identity -/

/-- C19: after a successful `ssl_gen_cert`, the subject is the single
commonName entry with the target name if one is configured and `localhost`
otherwise, the only subjectAltName extension was made from `DNS:` followed by
that same name, and the issuer equals the subject. -/
theorem ssl_gen_cert_names (o : Options) (env : GenEnv) (cert : X509_gen) (key : Nat)
    (h : ssl_gen_cert o env = (1, some cert, some key)) :
    cert.subject =
      [(str "commonName", cstr (match o.target with
        | some target => target
        | none => str "localhost"))] ∧
    cert.extensions.filter (fun e => decide (e.1 = str "subjectAltName")) =
      [(str "subjectAltName", str "DNS:" ++ cstr (match o.target with
        | some target => target
        | none => str "localhost"))] ∧
    cert.issuer = cert.subject := by
  unfold ssl_gen_cert at h
  cases hk : env.EVP_RSA_gen with
  | none =>
    rw [hk] at h
    exact absurd (show (0 : Int) = 1 from congrArg Prod.fst h) (by decide)
  | some k =>
    rw [hk] at h
    simp only at h
    by_cases c0 : env.X509_new = false
    · rw [if_pos c0] at h
      exact absurd (show (0 : Int) = 1 from congrArg Prod.fst h) (by decide)
    rw [if_neg c0] at h
    by_cases c1 : env.X509_set_version = 0
    · rw [if_pos c1] at h
      exact absurd (show (0 : Int) = 1 from congrArg Prod.fst h) (by decide)
    rw [if_neg c1] at h
    by_cases c2 : env.X509_NAME_add_entry_by_txt = 0
    · rw [if_pos c2] at h
      exact absurd (show (0 : Int) = 1 from congrArg Prod.fst h) (by decide)
    rw [if_neg c2] at h
    by_cases c3 : (Snprintf_DNS 128 (match o.target with
        | some target => target
        | none => str "localhost")).1 < 0 ∨
        (Snprintf_DNS 128 (match o.target with
        | some target => target
        | none => str "localhost")).1 ≥ 128
    · rw [if_pos c3] at h
      exact absurd (show (0 : Int) = 1 from congrArg Prod.fst h) (by decide)
    rw [if_neg c3] at h
    by_cases c4 : env.EXT_conf_subjectAltName = false
    · rw [if_pos c4] at h
      exact absurd (show (0 : Int) = 1 from congrArg Prod.fst h) (by decide)
    rw [if_neg c4] at h
    by_cases c5 : env.add_ext_subjectAltName = 0
    · rw [if_pos c5] at h
      exact absurd (show (0 : Int) = 1 from congrArg Prod.fst h) (by decide)
    rw [if_neg c5] at h
    by_cases c6 : env.EXT_conf_nsComment = false
    · rw [if_pos c6] at h
      exact absurd (show (0 : Int) = 1 from congrArg Prod.fst h) (by decide)
    rw [if_neg c6] at h
    by_cases c7 : env.add_ext_nsComment = 0
    · rw [if_pos c7] at h
      exact absurd (show (0 : Int) = 1 from congrArg Prod.fst h) (by decide)
    rw [if_neg c7] at h
    by_cases c8 : env.X509_set_issuer_name = 0 ∨ env.dup_notBefore = false
        ∨ env.gmtime_adj_notBefore = false ∨ env.X509_set1_notBefore = 0
        ∨ env.dup_notAfter = false ∨ env.gmtime_adj_notAfter = false
        ∨ env.X509_set1_notAfter = 0 ∨ env.X509_set_pubkey = 0
    · rw [if_pos c8] at h
      exact absurd (show (0 : Int) = 1 from congrArg Prod.fst h) (by decide)
    rw [if_neg c8] at h
    by_cases c9 : env.X509_sign = 0
    · rw [if_pos c9] at h
      exact absurd (show (0 : Int) = 1 from congrArg Prod.fst h) (by decide)
    rw [if_neg c9] at h
    simp only [Prod.mk.injEq, Option.some.injEq, true_and] at h
    obtain ⟨hc, _⟩ := h
    subst hc
    have hlen : (str "DNS:" ++ cstr (match o.target with
        | some target => target
        | none => str "localhost")).length < 128 := by
      simp only [Snprintf_DNS, ge_iff_le, not_or, not_le] at c3
      omega
    have htake : List.take (128 - 1) (str "DNS:" ++ cstr (match o.target with
        | some target => target
        | none => str "localhost")) =
        str "DNS:" ++ cstr (match o.target with
        | some target => target
        | none => str "localhost") := List.take_of_length_le (by omega)
    refine ⟨rfl, ?_, rfl⟩
    simp only [Snprintf_DNS, htake]
    rfl

theorem ssl_gen_cert_names_witness :
    ∃ cert key, ssl_gen_cert (optionsWith (some (str "foo.example")) none none) genEnvOk =
        (1, some cert, some key) ∧
      cert.subject = [(str "commonName", str "foo.example")] ∧
      cert.extensions.filter (fun e => decide (e.1 = str "subjectAltName")) =
        [(str "subjectAltName", str "DNS:foo.example")] ∧
      cert.issuer = cert.subject :=
  ⟨_, _, rfl,
    ssl_gen_cert_names (optionsWith (some (str "foo.example")) none none) genEnvOk _ _ rfl⟩

/-! ## Credentials of the listening context -/

theorem setup_ssl_listen_init_ok (K : Nat) (o : Options) (env : SetupEnv)
    (hrand : env.RAND_status ≠ 0) (hmethod : env.SSLv23_server_method = true)
    (hnew : env.SSL_CTX_new = true) (hciphers : env.SSL_CTX_set_cipher_list ≠ 0) :
    setup_ssl_listen K o env none =
      if o.sslcert = none ∧ o.sslkey = none then
        setup_generated K o env
          ⟨(match o.sslciphers with
            | none => str "ALL:!aNULL:!eNULL:!LOW:!EXP:!RC4:!MD5:@STRENGTH"
            | some c => c), none, none⟩
      else
        setup_files o env
          ⟨(match o.sslciphers with
            | none => str "ALL:!aNULL:!eNULL:!LOW:!EXP:!RC4:!MD5:@STRENGTH"
            | some c => c), none, none⟩ := by
  have hm : ¬ env.SSLv23_server_method = false := by simp [hmethod]
  have hn : ¬ env.SSL_CTX_new = false := by simp [hnew]
  unfold setup_ssl_listen
  simp only [hrand, hm, hn, hciphers, Bool.true_eq_false, if_false]

theorem setup_generated_calls (K : Nat) (o : Options) (env : SetupEnv) (ctx : SSL_CTX) :
    SetupCall.ssl_gen_cert ∈ (setup_generated K o env ctx).calls := by
  unfold setup_generated
  split
  · simp [SetupResult.calls]
  · simp [SetupResult.calls]
  · split_ifs <;> simp [SetupResult.calls]

theorem setup_generated_done (K : Nat) (o : Options) (env : SetupEnv) (ctx : SSL_CTX)
    (cert : X509_gen) (key : Nat) (hg : ssl_gen_cert o env.gen = (1, some cert, some key))
    (hfp : o.verbose = 0 ∨ fp_returns_buffer
      (ssl_cert_fp_str_sha1 K env.digest env.digest_buf (K + 1)) = true)
    (huc : env.SSL_CTX_use_certificate = 1) (huk : env.SSL_CTX_use_PrivateKey = 1) :
    ∃ calls, setup_generated K o env ctx =
      SetupResult.done { ctx with
        certificate := some (CertSource.object cert)
        private_key := some (KeySource.object key) } calls := by
  unfold setup_generated
  rw [hg]
  have hret : ¬ ((1 : Int) = 0) := by decide
  have huc' : ¬ env.SSL_CTX_use_certificate ≠ 1 := by simp [huc]
  have huk' : ¬ env.SSL_CTX_use_PrivateKey ≠ 1 := by simp [huk]
  simp only [hret, if_false, huc', huk']
  by_cases hv : o.verbose ≠ 0
  · have hb : ¬ fp_returns_buffer
        (ssl_cert_fp_str_sha1 K env.digest env.digest_buf (K + 1)) = false := by
      rcases hfp with h0 | h1
      · exact absurd h0 hv
      · rw [h1]; exact fun h => Bool.noConfusion h
    rw [if_pos hv, if_neg hb]
    exact ⟨_, rfl⟩
  · rw [if_neg hv]
    exact ⟨_, rfl⟩

theorem setup_files_calls (o : Options) (env : SetupEnv) (ctx : SSL_CTX) :
    SetupCall.ssl_gen_cert ∉ (setup_files o env ctx).calls := by
  unfold setup_files
  split
  · split_ifs <;> simp [SetupResult.calls]
  · simp [SetupResult.calls]

theorem setup_ssl_listen_mismatch (K : Nat) (o : Options) (env : SetupEnv)
    (h : (o.sslcert = none ∧ o.sslkey ≠ none) ∨ (o.sslcert ≠ none ∧ o.sslkey = none)) :
    ∃ msg sslctx, setup_ssl_listen K o env none = SetupResult.bye msg sslctx [] ∧
      ∀ ctx, sslctx = some ctx → ctx.certificate = none ∧ ctx.private_key = none := by
  have hboth : ¬ (o.sslcert = none ∧ o.sslkey = none) := by
    rcases h with ⟨_, h2⟩ | ⟨h1, _⟩
    · exact fun hc => h2 hc.2
    · exact fun hc => h1 hc.1
  have hfiles : ∀ ctx : SSL_CTX, ctx.certificate = none → ctx.private_key = none →
      ∃ msg sslctx, setup_files o env ctx = SetupResult.bye msg sslctx [] ∧
        ∀ ctx', sslctx = some ctx' → ctx'.certificate = none ∧ ctx'.private_key = none := by
    intro ctx hc1 hc2
    unfold setup_files
    rcases h with ⟨h1, h2⟩ | ⟨h1, h2⟩
    · rw [h1]
      exact ⟨_, _, rfl, fun ctx' he => by cases he; exact ⟨hc1, hc2⟩⟩
    · obtain ⟨c, hc⟩ := Option.ne_none_iff_exists'.mp h1
      rw [hc, h2]
      exact ⟨_, _, rfl, fun ctx' he => by cases he; exact ⟨hc1, hc2⟩⟩
  unfold setup_ssl_listen
  simp only [hboth, if_false]
  split_ifs
  · exact ⟨_, _, rfl, fun ctx' he => by cases he⟩
  · exact ⟨_, _, rfl, fun ctx' he => by cases he⟩
  · exact ⟨_, _, rfl, fun ctx' he => by cases he⟩
  · exact ⟨_, _, rfl, fun ctx' he => by cases he; exact ⟨rfl, rfl⟩⟩
  · exact hfiles _ rfl rfl

/-- C20: in a first `setup_ssl_listen` (the static context not yet set): with
exactly one of the certificate and key paths configured, the process ends with
`bye`, no credential call is made and the context holds no certificate and no
key, and when the initialisation calls succeed the message is that the two
options must be used together; with neither configured and the initialisation
calls succeeding, `ssl_gen_cert` is called and, when it and the install calls
succeed, its certificate and key are the ones installed; with both configured
and the initialisation calls succeeding, `ssl_gen_cert` is not called and, when
the two load calls succeed, the two files are the ones installed. -/
theorem setup_ssl_listen_credentials (K : Nat) (o : Options) (env : SetupEnv) :
    ((o.sslcert = none ∧ o.sslkey ≠ none) ∨ (o.sslcert ≠ none ∧ o.sslkey = none) →
      (∃ msg sslctx, setup_ssl_listen K o env none = SetupResult.bye msg sslctx [] ∧
        ∀ ctx, sslctx = some ctx → ctx.certificate = none ∧ ctx.private_key = none) ∧
      (env.RAND_status ≠ 0 → env.SSLv23_server_method = true → env.SSL_CTX_new = true →
        env.SSL_CTX_set_cipher_list ≠ 0 →
        ∃ ctx, setup_ssl_listen K o env none =
          SetupResult.bye "The --ssl-key and --ssl-cert options must be used together."
            (some ctx) [])) ∧
    (o.sslcert = none → o.sslkey = none →
      env.RAND_status ≠ 0 → env.SSLv23_server_method = true → env.SSL_CTX_new = true →
      env.SSL_CTX_set_cipher_list ≠ 0 →
      SetupCall.ssl_gen_cert ∈ (setup_ssl_listen K o env none).calls ∧
      ∀ cert key, ssl_gen_cert o env.gen = (1, some cert, some key) →
        (o.verbose = 0 ∨ fp_returns_buffer
          (ssl_cert_fp_str_sha1 K env.digest env.digest_buf (K + 1)) = true) →
        env.SSL_CTX_use_certificate = 1 → env.SSL_CTX_use_PrivateKey = 1 →
        ∃ ctx calls, setup_ssl_listen K o env none = SetupResult.done ctx calls ∧
          ctx.certificate = some (CertSource.object cert) ∧
          ctx.private_key = some (KeySource.object key)) ∧
    (∀ sslcert sslkey, o.sslcert = some sslcert → o.sslkey = some sslkey →
      env.RAND_status ≠ 0 → env.SSLv23_server_method = true → env.SSL_CTX_new = true →
      env.SSL_CTX_set_cipher_list ≠ 0 →
      SetupCall.ssl_gen_cert ∉ (setup_ssl_listen K o env none).calls ∧
      (env.SSL_CTX_use_certificate_chain_file = 1 → env.SSL_CTX_use_PrivateKey_file = 1 →
        ∃ ctx calls, setup_ssl_listen K o env none = SetupResult.done ctx calls ∧
          ctx.certificate = some (CertSource.chain_file sslcert) ∧
          ctx.private_key = some (KeySource.pem_file sslkey))) := by
  refine ⟨?_, ?_, ?_⟩
  · intro h
    refine ⟨setup_ssl_listen_mismatch K o env h, ?_⟩
    intro hrand hmethod hnew hciphers
    rw [setup_ssl_listen_init_ok K o env hrand hmethod hnew hciphers]
    have hboth : ¬ (o.sslcert = none ∧ o.sslkey = none) := by
      rcases h with ⟨_, h2⟩ | ⟨h1, _⟩
      · exact fun hc => h2 hc.2
      · exact fun hc => h1 hc.1
    rw [if_neg hboth]
    unfold setup_files
    rcases h with ⟨h1, h2⟩ | ⟨h1, h2⟩
    · rw [h1]
      exact ⟨_, rfl⟩
    · obtain ⟨c, hc⟩ := Option.ne_none_iff_exists'.mp h1
      rw [hc, h2]
      exact ⟨_, rfl⟩
  · intro hc hk hrand hmethod hnew hciphers
    rw [setup_ssl_listen_init_ok K o env hrand hmethod hnew hciphers]
    rw [if_pos ⟨hc, hk⟩]
    refine ⟨setup_generated_calls _ _ _ _, ?_⟩
    intro cert key hg hfp huc huk
    obtain ⟨calls, hd⟩ := setup_generated_done K o env _ cert key hg hfp huc huk
    exact ⟨_, calls, hd, rfl, rfl⟩
  · intro sslcert sslkey hc hk hrand hmethod hnew hciphers
    rw [setup_ssl_listen_init_ok K o env hrand hmethod hnew hciphers]
    have hboth : ¬ (o.sslcert = none ∧ o.sslkey = none) := by
      rw [hc]
      exact fun h => Option.noConfusion h.1
    rw [if_neg hboth]
    refine ⟨setup_files_calls _ _ _, ?_⟩
    intro h1 h2
    have h1' : ¬ env.SSL_CTX_use_certificate_chain_file ≠ 1 := by simp [h1]
    have h2' : ¬ env.SSL_CTX_use_PrivateKey_file ≠ 1 := by simp [h2]
    unfold setup_files
    rw [hc, hk]
    simp only [h1', h2', if_false]
    exact ⟨_, _, rfl, rfl, rfl⟩

theorem setup_ssl_listen_credentials_witness :
    (∃ ctx, setup_ssl_listen 49 (optionsWith none none (some (str "key.pem"))) setupEnvOk
        none =
          SetupResult.bye "The --ssl-key and --ssl-cert options must be used together."
            (some ctx) []) ∧
    (∃ ctx calls, setup_ssl_listen 49 (optionsWith none none none) setupEnvOk none =
        SetupResult.done ctx calls ∧
      ctx.certificate.isSome = true ∧ ctx.private_key = some (KeySource.object 77)) ∧
    (∃ ctx calls, setup_ssl_listen 49
        (optionsWith none (some (str "cert.pem")) (some (str "key.pem"))) setupEnvOk none =
          SetupResult.done ctx calls ∧
      ctx.certificate = some (CertSource.chain_file (str "cert.pem")) ∧
      ctx.private_key = some (KeySource.pem_file (str "key.pem"))) :=
  ⟨((setup_ssl_listen_credentials 49 (optionsWith none none (some (str "key.pem")))
      setupEnvOk).1 (Or.inl ⟨rfl, by decide⟩)).2 (by decide) rfl rfl (by decide),
    by
      obtain ⟨ctx, calls, h1, h2, h3⟩ :=
        ((setup_ssl_listen_credentials 49 (optionsWith none none none) setupEnvOk).2.1
          rfl rfl (by decide) rfl rfl (by decide)).2 _ 77 rfl (Or.inl rfl) rfl rfl
      exact ⟨ctx, calls, h1, by rw [h2]; rfl, h3⟩,
    ((setup_ssl_listen_credentials 49
        (optionsWith none (some (str "cert.pem")) (some (str "key.pem"))) setupEnvOk).2.2
      (str "cert.pem") (str "key.pem") rfl rfl (by decide) rfl rfl (by decide)).2 rfl rfl⟩

/-! ## One accept step per invocation -/

/-- C21: an invocation of `ssl_handshake` on a descriptor with TLS enabled and
a session `ssl` at hand (the descriptor's own, or the one `new_ssl` creates for
a descriptor that has none) calls `SSL_accept` exactly once, on `ssl`. With a
session of its own the descriptor is left as it is and no session is created;
without one the new session was bound to the descriptor's `fd` and is stored in
the descriptor. In both cases `fd` and `remoteaddr` are unchanged. -/
theorem ssl_handshake_accept_once (o : Options) (env : HandshakeEnv) (s : fdinfo) (ssl : Nat)
    (hssl : o.ssl ≠ 0)
    (hsess : s.ssl = some ssl ∨ (s.ssl = none ∧ (new_ssl env s.fd).1 = some ssl)) :
    (ssl_handshake o env (some s)).calls.count (LibCall.SSL_accept ssl) = 1 ∧
    (∀ x, LibCall.SSL_accept x ∈ (ssl_handshake o env (some s)).calls → x = ssl) ∧
    (s.ssl = some ssl →
      LibCall.SSL_new ∉ (ssl_handshake o env (some s)).calls ∧
      (ssl_handshake o env (some s)).sinfo = some s) ∧
    (s.ssl = none →
      env.SSL_new = some ssl ∧
      (ssl_handshake o env (some s)).calls.take 2 =
        [LibCall.SSL_new, LibCall.SSL_set_fd ssl s.fd]) ∧
    (ssl_handshake o env (some s)).sinfo = some ⟨s.fd, s.remoteaddr, some ssl⟩ := by
  rcases hsess with hown | ⟨hnone, hnew⟩
  · have hs : s = ⟨s.fd, s.remoteaddr, some ssl⟩ := by
      cases s
      simp only [fdinfo.mk.injEq, true_and]
      exact hown
    unfold ssl_handshake
    simp only [hssl, if_false, hown]
    refine ⟨?_, ?_, ?_, ?_, ?_⟩
    · split_ifs <;> simp [List.count_cons]
    · intro x
      split_ifs <;> simp
    · intro _
      refine ⟨?_, ?_⟩
      · split_ifs <;> simp
      · split_ifs <;> exact congrArg some hs.symm
    · intro h
      exact absurd h (by simp)
    · split_ifs <;> rfl
  · have hnew' : env.SSL_new = some ssl ∧
        (new_ssl env s.fd).2 = [LibCall.SSL_new, LibCall.SSL_set_fd ssl s.fd] := by
      unfold new_ssl at hnew ⊢
      cases h : env.SSL_new with
      | none => simp [h] at hnew
      | some x =>
        simp only [h] at hnew ⊢
        by_cases h0 : env.SSL_set_fd = 0
        · simp [h0] at hnew
        · simp only [h0, if_false, Option.some.injEq] at hnew ⊢
          subst hnew
          exact ⟨rfl, rfl⟩
    unfold ssl_handshake
    simp only [hssl, if_false, hnone, hnew, hnew'.2]
    refine ⟨?_, ?_, ?_, ?_, ?_⟩
    · split_ifs <;> simp [List.count_cons]
    · intro x
      split_ifs <;> simp
    · intro h
      exact absurd h (by simp)
    · intro _
      refine ⟨hnew'.1, ?_⟩
      split_ifs <;> rfl
    · split_ifs <;> rfl

theorem ssl_handshake_accept_once_witness :
    (ssl_handshake (optionsWith none none none) (acceptEnv (-1) SSL_ERROR_WANT_READ)
      (some freshDescriptor)).calls =
        [LibCall.SSL_new, LibCall.SSL_set_fd 4096 5, LibCall.SSL_accept 4096,
          LibCall.SSL_get_error 4096 (-1)] ∧
    (ssl_handshake (optionsWith none none none) (acceptEnv (-1) SSL_ERROR_WANT_READ)
      (some freshDescriptor)).calls.count (LibCall.SSL_accept 4096) = 1 ∧
    (ssl_handshake (optionsWith none none none) (acceptEnv 1 0)
      (some ⟨5, 0, some 64⟩)).calls.count (LibCall.SSL_accept 64) = 1 :=
  ⟨by decide,
    (ssl_handshake_accept_once (optionsWith none none none)
      (acceptEnv (-1) SSL_ERROR_WANT_READ) freshDescriptor 4096 (by decide)
      (Or.inr ⟨rfl, rfl⟩)).1,
    (ssl_handshake_accept_once (optionsWith none none none) (acceptEnv 1 0)
      ⟨5, 0, some 64⟩ 64 (by decide) (Or.inl rfl)).1⟩

/-! ## `num_components` counts the runs -/

theorem bytes_shift_succ (pattern : Nat → Nat) (p n : Nat) :
    bytes (fun i => pattern (i + p)) (n + 1) =
      pattern p :: bytes (fun i => pattern (i + (p + 1))) n := by
  have h : (fun i => (fun i => pattern (i + p)) (i + 1)) = fun i => pattern (i + (p + 1)) := by
    funext i
    have : i + 1 + p = i + (p + 1) := by omega
    simp only [this]
  simp only [bytes, Nat.zero_add, h]

theorem bytes_shift_of_lt (pattern : Nat → Nat) (len p : Nat) (hp : p < len) :
    bytes (fun i => pattern (i + p)) (len - p) =
      pattern p :: bytes (fun i => pattern (i + (p + 1))) (len - (p + 1)) := by
  have h : len - p = (len - (p + 1)) + 1 := by omega
  rw [h, bytes_shift_succ]

theorem bytes_shift_of_ge (pattern : Nat → Nat) (len p : Nat) (hp : ¬ p < len) :
    bytes (fun i => pattern (i + p)) (len - p) = [] := by
  have h : len - p = 0 := by omega
  rw [h]
  rfl

/-- The first inner loop of `num_components`, given fuel for the bytes that are
left, stops at the end or at a byte other than `'.'`, and the bytes from there
on hold as many runs as the bytes from `p` on. -/
theorem skip_run_dots_spec (pattern : Nat → Nat) (len : Nat) (f p : Nat) (hf : len - p ≤ f) :
    p ≤ skip_run pattern len true f p ∧
    (p ≤ len → skip_run pattern len true f p ≤ len) ∧
    (skip_run pattern len true f p < len → pattern (skip_run pattern len true f p) ≠ DOT) ∧
    runs_from false (bytes (fun i => pattern (i + skip_run pattern len true f p))
        (len - skip_run pattern len true f p)) =
      runs_from false (bytes (fun i => pattern (i + p)) (len - p)) := by
  induction f generalizing p with
  | zero =>
    have hp : ¬ p < len := by omega
    simp only [skip_run]
    exact ⟨Nat.le_refl _, fun h => h, fun h => absurd h hp, trivial⟩
  | succ f ih =>
    by_cases c : p < len ∧ decide (pattern p = DOT) = true
    · obtain ⟨i1, i2, i3, i4⟩ := ih (p + 1) (by omega)
      have hd : pattern p = DOT := by simpa using c.2
      simp only [skip_run, c, and_self, if_true]
      refine ⟨by omega, fun _ => i2 (by omega), i3, ?_⟩
      rw [i4, bytes_shift_of_lt pattern len p c.1, hd]
      simp [runs_from]
    · simp only [skip_run, c, if_false]
      refine ⟨Nat.le_refl _, fun h => h, ?_, trivial⟩
      intro hlt hd
      exact c ⟨hlt, by simpa using hd⟩

/-- The second inner loop of `num_components`, given fuel for the bytes that
are left, stops at the end or at a `'.'`, after at least one byte when it
starts on a byte other than `'.'`, and the bytes it passes add no run to a run
already counted. -/
theorem skip_run_nondots_spec (pattern : Nat → Nat) (len : Nat) (f p : Nat)
    (hf : len - p ≤ f) :
    p ≤ skip_run pattern len false f p ∧
    (p ≤ len → skip_run pattern len false f p ≤ len) ∧
    (p < len → pattern p ≠ DOT → p < skip_run pattern len false f p) ∧
    (skip_run pattern len false f p < len → pattern (skip_run pattern len false f p) = DOT) ∧
    runs_from true (bytes (fun i => pattern (i + p)) (len - p)) =
      runs_from false (bytes (fun i => pattern (i + skip_run pattern len false f p))
        (len - skip_run pattern len false f p)) := by
  induction f generalizing p with
  | zero =>
    have hp : ¬ p < len := by omega
    simp only [skip_run]
    refine ⟨Nat.le_refl _, fun h => h, fun h => absurd h hp, fun h => absurd h hp, ?_⟩
    rw [bytes_shift_of_ge pattern len p hp]
    rfl
  | succ f ih =>
    by_cases c : p < len ∧ decide (pattern p = DOT) = false
    · obtain ⟨i1, i2, _, i4, i5⟩ := ih (p + 1) (by omega)
      have hd : ¬ pattern p = DOT := by simpa using c.2
      simp only [skip_run, c, and_self, if_true]
      refine ⟨by omega, fun _ => i2 (by omega), fun _ _ => by omega, i4, ?_⟩
      rw [← i5, bytes_shift_of_lt pattern len p c.1]
      simp [runs_from, hd]
    · simp only [skip_run, c, if_false]
      by_cases hp : p < len
      · have hd : pattern p = DOT := by
          by_contra hne
          exact c ⟨hp, by simpa using hne⟩
        refine ⟨Nat.le_refl _, fun h => h, fun _ hne => absurd hd hne, fun _ => hd, ?_⟩
        rw [bytes_shift_of_lt pattern len p hp, hd]
        simp [runs_from]
      · refine ⟨Nat.le_refl _, fun h => h, fun h => absurd h hp, fun h => absurd h hp, ?_⟩
        rw [bytes_shift_of_ge pattern len p hp]
        rfl

theorem num_components_loop_spec (pattern : Nat → Nat) (len : Nat) (fuel p count : Nat)
    (hp : p ≤ len) (hfuel : len - p + 1 ≤ fuel) :
    num_components_loop pattern len fuel p count =
      count + runs_from false (bytes (fun i => pattern (i + p)) (len - p)) := by
  induction fuel generalizing p count with
  | zero => omega
  | succ fuel ih =>
    obtain ⟨d1, d2, d3, d4⟩ := skip_run_dots_spec pattern len (len - p) p (Nat.le_refl _)
    have d2' := d2 hp
    simp only [num_components_loop]
    by_cases hge : skip_run pattern len true (len - p) p ≥ len
    · rw [if_pos hge, ← d4, bytes_shift_of_ge pattern len _ (by omega)]
      rfl
    · rw [if_neg hge]
      have hlt : skip_run pattern len true (len - p) p < len := by omega
      obtain ⟨n1, n2, n3, _, n5⟩ := skip_run_nondots_spec pattern len
        (len - skip_run pattern len true (len - p) p) (skip_run pattern len true (len - p) p)
        (Nat.le_refl _)
      have hgt := n3 hlt (d3 hlt)
      have hle := n2 d2'
      rw [ih _ (count + 1) hle (by omega), ← n5, ← d4,
        bytes_shift_of_lt pattern len _ hlt]
      simp only [runs_from, d3 hlt, if_false, if_true, Bool.false_eq_true]
      omega

/-- C22: for every pattern and length, `num_components` gives the number of
maximal contiguous non-empty runs of bytes other than `'.'` among the `len`
bytes; the outer loop gives that number with any fuel of at least `len + 1`,
and each inner loop, run with the fuel it is given, ends because its condition
fails. Leading, trailing and repeated dots add nothing. -/
theorem num_components_eq_count_runs (pattern : Nat → Nat) (len : Nat) :
    num_components pattern len = count_runs (bytes pattern len) ∧
    (∀ fuel, len + 1 ≤ fuel →
      num_components_loop pattern len fuel 0 0 = count_runs (bytes pattern len)) ∧
    (∀ p, skip_run pattern len true (len - p) p < len →
      pattern (skip_run pattern len true (len - p) p) ≠ DOT) ∧
    (∀ p, skip_run pattern len false (len - p) p < len →
      pattern (skip_run pattern len false (len - p) p) = DOT) ∧
    count_runs (str "a.b") = 2 ∧ count_runs (str ".a..b.") = 2 ∧
    count_runs [] = 0 ∧ count_runs (str "...") = 0 := by
  have h : ∀ fuel, len + 1 ≤ fuel →
      num_components_loop pattern len fuel 0 0 = count_runs (bytes pattern len) := by
    intro fuel hfuel
    rw [num_components_loop_spec pattern len fuel 0 0 (Nat.zero_le _) (by omega)]
    simp only [Nat.zero_add, Nat.sub_zero, Nat.add_zero, count_runs]
  refine ⟨h (len + 1) (Nat.le_refl _), h, ?_, ?_, by decide, by decide, by decide, by decide⟩
  · intro p
    exact (skip_run_dots_spec pattern len (len - p) p (Nat.le_refl _)).2.2.1
  · intro p
    exact (skip_run_nondots_spec pattern len (len - p) p (Nat.le_refl _)).2.2.2.1

theorem num_components_eq_count_runs_witness :
    num_components (mem (str ".a..b.")) 6 = 2 ∧ num_components (mem (str "a.b")) 3 = 2 ∧
    num_components (mem (str "...")) 3 = 0 ∧ num_components (mem []) 0 = 0 :=
  ⟨(num_components_eq_count_runs (mem (str ".a..b.")) 6).1,
    (num_components_eq_count_runs (mem (str "a.b")) 3).1,
    (num_components_eq_count_runs (mem (str "...")) 3).1,
    (num_components_eq_count_runs (mem []) 0).1⟩

/-! ## The stores of the fingerprint formatter -/

theorem fp_loop_fst_ge (d : List Nat) (i p : Nat) (buf : OutBuf) :
    p ≤ (fp_loop d i p buf).1 := by
  induction d generalizing i p buf with
  | nil => exact Nat.le_refl _
  | cons byte rest ih =>
    by_cases hsp : i > 0 ∧ i % 2 = 0
    · rw [fp_loop, if_pos hsp]
      have := ih (i + 1) (p + 1 + 2) (Snprintf_02X (buf.put p 32) (p + 1) byte)
      omega
    · rw [fp_loop, if_neg hsp]
      have := ih (i + 1) (p + 2) (Snprintf_02X buf p byte)
      omega

/-- Every offset that the loop of `ssl_cert_fp_str_sha1` stores to lies between
the write pointer at the start and the write pointer at the end. -/
theorem fp_loop_written (d : List Nat) (i p : Nat) (buf : OutBuf) (off : Nat)
    (hoff : off ∈ (fp_loop d i p buf).2.written) :
    off ∈ buf.written ∨ (p ≤ off ∧ off ≤ (fp_loop d i p buf).1) := by
  induction d generalizing i p buf with
  | nil => exact Or.inl hoff
  | cons byte rest ih =>
    by_cases hsp : i > 0 ∧ i % 2 = 0
    · rw [fp_loop, if_pos hsp] at hoff ⊢
      have hge := fp_loop_fst_ge rest (i + 1) (p + 1 + 2)
        (Snprintf_02X (buf.put p 32) (p + 1) byte)
      rcases ih (i + 1) (p + 1 + 2) (Snprintf_02X (buf.put p 32) (p + 1) byte) hoff with h | h
      · simp only [Snprintf_02X, OutBuf.put, List.mem_append, List.mem_singleton] at h
        rcases h with (((h | h) | h) | h) | h
        · exact Or.inl h
        · exact Or.inr ⟨by omega, by omega⟩
        · exact Or.inr ⟨by omega, by omega⟩
        · exact Or.inr ⟨by omega, by omega⟩
        · exact Or.inr ⟨by omega, by omega⟩
      · exact Or.inr ⟨by omega, h.2⟩
    · rw [fp_loop, if_neg hsp] at hoff ⊢
      have hge := fp_loop_fst_ge rest (i + 1) (p + 2) (Snprintf_02X buf p byte)
      rcases ih (i + 1) (p + 2) (Snprintf_02X buf p byte) hoff with h | h
      · simp only [Snprintf_02X, OutBuf.put, List.mem_append, List.mem_singleton] at h
        rcases h with ((h | h) | h) | h
        · exact Or.inl h
        · exact Or.inr ⟨by omega, by omega⟩
        · exact Or.inr ⟨by omega, by omega⟩
        · exact Or.inr ⟨by omega, by omega⟩
      · exact Or.inr ⟨by omega, h.2⟩

/-- C23: for a digest of 20 bytes and a buffer length that passes the size
check (`SHA1_STRING_LENGTH` being at least 49), the write pointer ends at
offset 49, so the assertion holds and the function returns, and every store it
made (digits, separators, the terminators of the formatting step and the last
terminator, which is the last store) is at an offset below the buffer length. -/
theorem ssl_cert_fp_str_sha1_stores_in_bounds (K : Nat) (d : List Nat) (strbuf : Nat → Nat)
    (len : Nat) (hK : 49 ≤ K) (hlen : K + 1 ≤ len) (hd : d.length = 20) :
    ∃ buf, ssl_cert_fp_str_sha1 K (some d) strbuf len = FpResult.returned (some 0) buf ∧
      (∀ off ∈ buf.written, off < len) ∧
      (fp_loop d 0 0 ⟨strbuf, []⟩).1 = 49 ∧ (fp_loop d 0 0 ⟨strbuf, []⟩).1 ≤ len ∧
      buf.written.getLast? = some 49 := by
  have hne : d ≠ [] := by
    intro h; rw [h] at hd; simp at hd
  obtain ⟨hp, _⟩ := fp_loop_spec d 0 0 ⟨strbuf, []⟩ hne
  rw [fp_text_from_length_twenty d hd] at hp
  have hp' : (fp_loop d 0 0 ⟨strbuf, []⟩).1 = 49 := by omega
  have hlt : ¬ (len < K + 1) := by omega
  have hle : (fp_loop d 0 0 ⟨strbuf, []⟩).1 ≤ len := by omega
  refine ⟨_, by simp only [ssl_cert_fp_str_sha1, hlt, if_false, hle, if_true]; rfl, ?_, hp',
    hle, ?_⟩
  · intro off hoff
    simp only [OutBuf.put, List.mem_append, List.mem_singleton] at hoff
    rcases hoff with h | h
    · rcases fp_loop_written d 0 0 ⟨strbuf, []⟩ off h with h1 | h1
      · simp at h1
      · omega
    · omega
  · simp only [OutBuf.put, hp', List.getLast?_append, List.getLast?_singleton]
    rfl

theorem ssl_cert_fp_str_sha1_stores_in_bounds_witness :
    ∃ buf, ssl_cert_fp_str_sha1 49 (some digest_sample) (mem []) 50 =
        FpResult.returned (some 0) buf ∧
      (∀ off ∈ buf.written, off < 50) ∧
      (fp_loop digest_sample 0 0 ⟨mem [], []⟩).1 = 49 ∧
      (fp_loop digest_sample 0 0 ⟨mem [], []⟩).1 ≤ 50 ∧
      buf.written.getLast? = some 49 :=
  ssl_cert_fp_str_sha1_stores_in_bounds 49 digest_sample (mem []) 50 (by decide) (by decide)
    (by decide)

/-! ## The length check of `ssl_gen_cert` -/

theorem Snprintf_DNS_fst (size : Nat) (name : List Nat) :
    (Snprintf_DNS size name).1 = ((4 + strlen name : Nat) : Int) := by
  have h4 : (str "DNS:").length = 4 := by decide
  simp only [Snprintf_DNS, List.length_append, h4, strlen_eq_length_cstr]

theorem ssl_gen_cert_long_target (o : Options) (env : GenEnv) (target : List Nat)
    (ht : o.target = some target) (hlen : 124 ≤ strlen target) :
    ssl_gen_cert o env = (0, none, none) := by
  have hrc : (Snprintf_DNS 128 target).1 < 0 ∨ (Snprintf_DNS 128 target).1 ≥ 128 := by
    right
    rw [Snprintf_DNS_fst]
    omega
  unfold ssl_gen_cert
  cases hk : env.EVP_RSA_gen with
  | none => rfl
  | some k =>
    simp only [ht]
    by_cases c0 : env.X509_new = false
    · rw [if_pos c0]
    rw [if_neg c0]
    by_cases c1 : env.X509_set_version = 0
    · rw [if_pos c1]
    rw [if_neg c1]
    by_cases c2 : env.X509_NAME_add_entry_by_txt = 0
    · rw [if_pos c2]
    rw [if_neg c2, if_pos hrc]

/-- C24: with a configured target name of 124 bytes or more, `ssl_gen_cert`
returns 0 whatever the library answers, and a listener setup that reaches it
(first setup, initialisation calls succeeding, no certificate and key paths)
ends the process with `bye`; with a target name of at most 123 bytes the
length check passes, the buffer holds `DNS:` and the whole name, and when
every library call succeeds the certificate carries the whole name as
commonName and in its subjectAltName value. -/
theorem ssl_gen_cert_target_length (o : Options) (env : GenEnv) (target : List Nat)
    (ht : o.target = some target) :
    (124 ≤ strlen target →
      ssl_gen_cert o env = (0, none, none) ∧
      ∀ (K : Nat) (senv : SetupEnv), senv.gen = env → o.sslcert = none → o.sslkey = none →
        senv.RAND_status ≠ 0 → senv.SSLv23_server_method = true → senv.SSL_CTX_new = true →
        senv.SSL_CTX_set_cipher_list ≠ 0 →
        ∃ ctx, setup_ssl_listen K o senv none =
          SetupResult.bye "ssl_gen_cert(): %s." (some ctx) [SetupCall.ssl_gen_cert]) ∧
    (strlen target ≤ 123 →
      ¬ ((Snprintf_DNS 128 target).1 < 0 ∨ (Snprintf_DNS 128 target).1 ≥ 128) ∧
      (Snprintf_DNS 128 target).2 = str "DNS:" ++ cstr target ∧
      (env.all_ok → ∃ cert key, ssl_gen_cert o env = (1, some cert, some key) ∧
        cert.subject = [(str "commonName", cstr target)] ∧
        cert.extensions.head? = some (str "subjectAltName", str "DNS:" ++ cstr target))) := by
  constructor
  · intro hlen
    have hg := ssl_gen_cert_long_target o env target ht hlen
    refine ⟨hg, ?_⟩
    intro K senv hsenv hc hk hrand hmethod hnew hciphers
    rw [setup_ssl_listen_init_ok K o senv hrand hmethod hnew hciphers, if_pos ⟨hc, hk⟩]
    unfold setup_generated
    rw [hsenv, hg]
    exact ⟨_, rfl⟩
  · intro hlen
    have h4 : (str "DNS:").length = 4 := by decide
    have hrc : ¬ ((Snprintf_DNS 128 target).1 < 0 ∨ (Snprintf_DNS 128 target).1 ≥ 128) := by
      rw [Snprintf_DNS_fst]
      omega
    have hbuf : (Snprintf_DNS 128 target).2 = str "DNS:" ++ cstr target := by
      simp only [Snprintf_DNS]
      apply List.take_of_length_le
      rw [List.length_append, h4, ← strlen_eq_length_cstr]
      omega
    refine ⟨hrc, hbuf, ?_⟩
    intro hok
    obtain ⟨a0, a1, a2, a3, a4, a5, a6, a7, a8, a9, a10, a11, a12, a13, a14, a15, a16⟩ := hok
    obtain ⟨k, hk⟩ := Option.ne_none_iff_exists'.mp a0
    have c0 : ¬ env.X509_new = false := by rw [a1]; exact fun h => Bool.noConfusion h
    have c4 : ¬ env.EXT_conf_subjectAltName = false := by
      rw [a4]; exact fun h => Bool.noConfusion h
    have c6 : ¬ env.EXT_conf_nsComment = false := by
      rw [a6]; exact fun h => Bool.noConfusion h
    have c8 : ¬ (env.X509_set_issuer_name = 0 ∨ env.dup_notBefore = false
        ∨ env.gmtime_adj_notBefore = false ∨ env.X509_set1_notBefore = 0
        ∨ env.dup_notAfter = false ∨ env.gmtime_adj_notAfter = false
        ∨ env.X509_set1_notAfter = 0 ∨ env.X509_set_pubkey = 0) := by
      rw [a9, a10, a12, a13]
      rintro (h | h | h | h | h | h | h | h)
      · exact a8 h
      · exact Bool.noConfusion h
      · exact Bool.noConfusion h
      · exact a11 h
      · exact Bool.noConfusion h
      · exact Bool.noConfusion h
      · exact a14 h
      · exact a15 h
    unfold ssl_gen_cert
    rw [hk]
    simp only [ht]
    rw [if_neg c0, if_neg a2, if_neg a3, if_neg hrc, if_neg c4, if_neg a5, if_neg c6, if_neg a7,
      if_neg c8, if_neg a16]
    refine ⟨_, _, rfl, rfl, ?_⟩
    simp only [List.head?_cons, hbuf]

set_option maxRecDepth 4096 in
theorem ssl_gen_cert_target_length_witness :
    ssl_gen_cert (optionsWith (some (List.replicate 124 97)) none none) genEnvOk =
      (0, none, none) ∧
    (∃ cert key, ssl_gen_cert (optionsWith (some (List.replicate 123 97)) none none)
        genEnvOk = (1, some cert, some key) ∧
      cert.subject = [(str "commonName", cstr (List.replicate 123 97))] ∧
      cert.extensions.head? =
        some (str "subjectAltName", str "DNS:" ++ cstr (List.replicate 123 97))) :=
  ⟨((ssl_gen_cert_target_length (optionsWith (some (List.replicate 124 97)) none none)
      genEnvOk (List.replicate 124 97) rfl).1 (Nat.le_of_ble_eq_true rfl)).1,
    ((ssl_gen_cert_target_length (optionsWith (some (List.replicate 123 97)) none none)
      genEnvOk (List.replicate 123 97) rfl).2 (Nat.le_of_ble_eq_true rfl)).2.2 (by
        refine ⟨by decide, rfl, by decide, by decide, rfl, by decide, rfl, by decide,
          by decide, rfl, rfl, by decide, rfl, rfl, by decide, by decide, by decide⟩)⟩

/-! ## The commonName fallback -/

/-- The entry that is not less specific than any other and is followed only by
less specific entries is unique. -/
theorem last_maximal_unique (pre pre' post post' : List ASN1_STRING) (e r : ASN1_STRING)
    (h : pre ++ e :: post = pre' ++ r :: post')
    (her : less_specific e.data e.length r.data r.length = false)
    (hre : less_specific r.data r.length e.data e.length = false)
    (hpost : ∀ x ∈ post, less_specific x.data x.length e.data e.length = true)
    (hpost' : ∀ x ∈ post', less_specific x.data x.length r.data r.length = true) :
    e = r := by
  induction pre generalizing pre' with
  | nil =>
    cases pre' with
    | nil =>
      simp only [List.nil_append, List.cons.injEq] at h
      exact h.1
    | cons y ys =>
      simp only [List.nil_append, List.cons_append, List.cons.injEq] at h
      have hmem : r ∈ post := by
        rw [h.2]
        exact List.mem_append_right _ (List.mem_cons_self _ _)
      have := hpost r hmem
      rw [hre] at this
      exact absurd this (by decide)
  | cons x xs ih =>
    cases pre' with
    | nil =>
      simp only [List.nil_append, List.cons_append, List.cons.injEq] at h
      have hmem : e ∈ post' := by
        rw [← h.2]
        exact List.mem_append_right _ (List.mem_cons_self _ _)
      have := hpost' e hmem
      rw [her] at this
      exact absurd this (by decide)
    | cons y ys =>
      simp only [List.cons_append, List.cons.injEq] at h
      exact ih ys h.2

/-- What `cert_match_commonname` computes: the subject has a commonName entry
that is not less specific than any other and is followed only by less specific
ones, and `wildcard_match` accepts the hostname for that entry. -/
theorem cert_match_commonname_iff (cert : X509) (hostname : List Nat) :
    cert_match_commonname cert hostname = true ↔
      ∃ subject e pre post, cert.subject = some subject ∧
        cn_values subject = pre ++ e :: post ∧
        (∀ x ∈ cn_values subject, less_specific e.data e.length x.data x.length = false) ∧
        (∀ x ∈ post, less_specific x.data x.length e.data e.length = true) ∧
        wildcard_match e.data hostname e.length = true := by
  cases hs : cert.subject with
  | none =>
    constructor
    · intro h
      simp [cert_match_commonname, hs] at h
    · rintro ⟨subject, _, _, _, h, _⟩
      cases h
  | some subject =>
    rcases most_specific_loop_none subject with ⟨h1, h2⟩ | ⟨c, rest, h1, h2⟩
    · constructor
      · intro h
        simp [cert_match_commonname, hs, most_specific_commonname, h2] at h
      · rintro ⟨subject', e, pre, post, hsub, hcn, _⟩
        cases hsub
        rw [h1] at hcn
        cases pre <;> cases hcn
    · obtain ⟨r, pre, post, g1, g2, g3, g4⟩ := most_specific_loop_some rest c
      have hcm : cert_match_commonname cert hostname = wildcard_match r.data hostname r.length := by
        have hn : ¬ ((r.length : Int) < 0) := by omega
        simp only [cert_match_commonname, hs, most_specific_commonname, h2, g1, hn, if_false,
          Int.toNat_ofNat]
      rw [hcm]
      constructor
      · intro hw
        exact ⟨subject, r, pre, post, rfl, by rw [h1]; exact g2, by rw [h1]; exact g3, g4, hw⟩
      · rintro ⟨subject', e, pre', post', hsub, hcn, hmax, hlast, hw⟩
        cases hsub
        have hmem_r : r ∈ cn_values subject := by
          rw [h1, g2]
          exact List.mem_append_right _ (List.mem_cons_self _ _)
        have hmem_e : e ∈ c :: cn_values rest := by
          rw [← h1, hcn]
          exact List.mem_append_right _ (List.mem_cons_self _ _)
        have heq : e = r :=
          last_maximal_unique pre' pre post' post e r
            (by rw [← hcn, h1, g2]) (hmax r hmem_r) (g3 e hmem_e) hlast g4
        rw [← heq]
        exact hw

/-- C9: when verification is requested and the peer certificate has no
subjectAltName extension, or two or more of them, or a single one that yields
no dNSName entry, then `cert_match_dnsname` reports no match with zero names
examined, and the check returns true exactly when the most specific commonName
of the subject (the entry that no other commonName is more specific than and
that is followed only by less specific ones) is accepted by `wildcard_match`
for the hostname and the verification result is `X509_V_OK`; this is also the
value of `cert_match_commonname` combined with the verification result. -/
theorem ssl_post_connect_check_cn_fallback (ssl : SSL) (hostname : List Nat) (cert : X509)
    (hmode : ssl.verify_mode ≠ SSL_VERIFY_NONE) (hcert : ssl.peer_certificate = some cert)
    (hsan :
      cert.extensions.filter (fun e => decide (e.nid = NID_subject_alt_name)) = [] ∨
      2 ≤ (cert.extensions.filter (fun e => decide (e.nid = NID_subject_alt_name))).length ∨
      ∃ ext, cert.extensions.filter (fun e => decide (e.nid = NID_subject_alt_name)) = [ext] ∧
        ∀ names, ext.gen_names = some names → ∀ g ∈ names, g.type ≠ GEN_DNS) :
    cert_match_dnsname cert hostname = (false, 0) ∧
    ssl_post_connect_check ssl (some hostname) =
      (cert_match_commonname cert hostname && decide (ssl.verify_result = X509_V_OK)) ∧
    (ssl_post_connect_check ssl (some hostname) = true ↔
      (∃ subject e pre post, cert.subject = some subject ∧
        cn_values subject = pre ++ e :: post ∧
        (∀ x ∈ cn_values subject, less_specific e.data e.length x.data x.length = false) ∧
        (∀ x ∈ post, less_specific x.data x.length e.data e.length = true) ∧
        wildcard_match e.data hostname e.length = true) ∧
      ssl.verify_result = X509_V_OK) := by
  have hd : cert_match_dnsname cert hostname = (false, 0) := by
    rw [cert_match_dnsname_eq]
    rcases hsan with h | h | ⟨ext, h, hn⟩
    · rw [h]
    · cases hf : cert.extensions.filter (fun e => decide (e.nid = NID_subject_alt_name)) with
      | nil => rfl
      | cons e es =>
        cases es with
        | nil => rw [hf] at h; simp at h
        | cons e' es' => rfl
    · rw [h]
      cases hg : ext.gen_names with
      | none => simp only [hg]
      | some names =>
        simp only [hg]
        exact dnsname_loop_no_dns hostname names 0 (hn names hg)
  have heq : ssl_post_connect_check ssl (some hostname) =
      (cert_match_commonname cert hostname && decide (ssl.verify_result = X509_V_OK)) := by
    rw [ssl_post_connect_check_eq ssl hostname cert hmode hcert, hd]
    simp
  refine ⟨hd, heq, ?_⟩
  rw [heq, Bool.and_eq_true, decide_eq_true_eq, cert_match_commonname_iff]

theorem ssl_post_connect_check_cn_fallback_witness :
    wildcard_match (asn1 "mail.example.com").data (str "mail.example.com")
      (asn1 "mail.example.com").length = true ∧
    wildcard_match (asn1 "*.example.com").data (str "mail.example.com")
      (asn1 "*.example.com").length = true ∧
    cert_match_dnsname certTwoSanTwoCn (str "mail.example.com") = (false, 0) ∧
    ssl_post_connect_check (sslWith certTwoSanTwoCn 0) (some (str "mail.example.com")) =
      false ∧
    ssl_post_connect_check (sslWith certTwoSanTwoCn 0) (some (str "www.example.com")) =
      true ∧
    ssl_post_connect_check (sslWith certTwoSanTwoCn 18) (some (str "www.example.com")) =
      false :=
  ⟨by decide, by decide,
    (ssl_post_connect_check_cn_fallback (sslWith certTwoSanTwoCn 0) (str "mail.example.com")
      certTwoSanTwoCn (by decide) rfl (Or.inr (Or.inl (by decide)))).1,
    (ssl_post_connect_check_cn_fallback (sslWith certTwoSanTwoCn 0) (str "mail.example.com")
      certTwoSanTwoCn (by decide) rfl (Or.inr (Or.inl (by decide)))).2.1.trans (by decide),
    (ssl_post_connect_check_cn_fallback (sslWith certTwoSanTwoCn 0) (str "www.example.com")
      certTwoSanTwoCn (by decide) rfl (Or.inr (Or.inl (by decide)))).2.2.mpr
      ⟨⟨[cnEntry "*.example.com", cnEntry "www.example.com"], asn1 "www.example.com",
          [asn1 "*.example.com"], [], rfl, rfl,
          (by
            intro x hx
            have hx' : x ∈ [asn1 "*.example.com", asn1 "www.example.com"] := hx
            simp only [List.mem_cons, List.mem_singleton, List.not_mem_nil, or_false] at hx'
            rcases hx' with rfl | rfl <;> decide),
          (by intro x hx; cases hx), by decide⟩, rfl⟩,
    (ssl_post_connect_check_cn_fallback (sslWith certTwoSanTwoCn 18) (str "www.example.com")
      certTwoSanTwoCn (by decide) rfl (Or.inr (Or.inl (by decide)))).2.1.trans (by decide)⟩

end NcatSsl
